import Mathlib

/-!
# PageBin: entry lifecycle over pluggable storage backends

A shallow embedding of `index.js` (the storage-abstracted server) and of the
parts of the JavaScript runtime and of the `sanitize-filename` package that its
request handlers call.

* JavaScript strings are Lean strings (sequences of code points, so well-formed
  UTF-16); a request field is `Option String` (`none` is an absent field).
* A timestamp string is given by the time value it spells: the handlers only
  store what `toISOString` prints.
* A storage call is given a flag `ok` saying whether the underlying file-system
  or database call completes; when it does not, the `catch` branch of the
  backend method runs.
* `Math.random()` and `new Date()` are inputs of the handlers.
* `GET /:id` is taken as Express dispatches it: `express.static`, the route `/`
  and the route `/create` are registered before it and answer first.
-/

namespace PageBin

/-! ## Strings -/

/-- White space and line terminators, the code points `String.prototype.trim` strips. -/
def isJsWhitespace (c : Char) : Bool :=
  let n := c.toNat
  n == 0x09 || n == 0x0A || n == 0x0B || n == 0x0C || n == 0x0D || n == 0x20 ||
  n == 0xA0 || n == 0x1680 || (0x2000 ≤ n && n ≤ 0x200A) || n == 0x2028 ||
  n == 0x2029 || n == 0x202F || n == 0x205F || n == 0x3000 || n == 0xFEFF

/-- Drop the trailing run of characters satisfying `p`. -/
def dropTrailing (p : Char → Bool) (cs : List Char) : List Char :=
  ((cs.reverse).dropWhile p).reverse

/-- The method `String.prototype.trim`. -/
def trim (s : String) : String :=
  String.mk (dropTrailing isJsWhitespace (s.data.dropWhile isJsWhitespace))

/-- The test `x.trim() === ""`. -/
def isBlank (s : String) : Bool :=
  (trim s).data.isEmpty

/-- The method `String.prototype.substring(a, b)` for `a ≤ b`. -/
def substring (s : String) (a b : Nat) : String :=
  String.mk ((s.data.drop a).take (b - a))

/-! ## The `sanitize-filename` package -/

/-- Character class of `illegalRe = /[\/\?<>\\:\*\|"]/g`. -/
def illegalRe (c : Char) : Bool :=
  let n := c.toNat
  n == 47 || n == 63 || n == 60 || n == 62 || n == 92 || n == 58 || n == 42 ||
  n == 124 || n == 34

/-- Character class of `controlRe = /[\x00-\x1f\x80-\x9f]/g`. -/
def controlRe (c : Char) : Bool :=
  let n := c.toNat
  n ≤ 0x1f || (0x80 ≤ n && n ≤ 0x9f)

/-- Whole-string test of `reservedRe = /^\.+$/`. -/
def reservedRe (cs : List Char) : Bool :=
  !cs.isEmpty && cs.all (fun c => c.toNat == 46)

/-- ASCII lower-casing, the case folding of the `i` flag on ASCII patterns. -/
def asciiLower (c : Char) : Nat :=
  if 65 ≤ c.toNat ∧ c.toNat ≤ 90 then c.toNat + 32 else c.toNat

/-- Line terminators, which `.` does not match. -/
def isLineTerminator (c : Char) : Bool :=
  let n := c.toNat
  n == 0x0A || n == 0x0D || n == 0x2028 || n == 0x2029

/-- The optional tail `(\..*)?$` of `windowsReservedRe`. -/
def reservedTail (cs : List Char) : Bool :=
  match cs with
  | [] => true
  | c :: rest => c.toNat == 46 && rest.all (fun d => !isLineTerminator d)

/-- Whole-string test of
`windowsReservedRe = /^(con|prn|aux|nul|com[0-9]|lpt[0-9])(\..*)?$/i`. -/
def windowsReservedRe (cs : List Char) : Bool :=
  let three := (cs.take 3).map asciiLower
  let named := three == [99, 111, 110] || three == [112, 114, 110] ||
    three == [97, 117, 120] || three == [110, 117, 108]
  let numbered := (three == [99, 111, 109] || three == [108, 112, 116]) &&
    (match cs.drop 3 with
     | d :: _ => 48 ≤ d.toNat && d.toNat ≤ 57
     | [] => false)
  (named && reservedTail (cs.drop 3)) || (numbered && reservedTail (cs.drop 4))

/-- Character class of `windowsTrailingRe = /[\. ]+$/`. -/
def windowsTrailingRe (c : Char) : Bool :=
  c.toNat == 46 || c.toNat == 32

/-- The function `truncate` of `truncate-utf8-bytes`: the longest prefix of whole
code points that fits in `budget` bytes of UTF-8. -/
def truncate : Nat → List Char → List Char
  | _, [] => []
  | budget, c :: cs =>
    if c.utf8Size ≤ budget then c :: truncate (budget - c.utf8Size) cs else []

/-- The function `sanitize(input)` of `sanitize-filename` with the default
(empty) replacement: the five `replace` calls in order, then truncation to 255 bytes. -/
def sanitize (input : String) : String :=
  let s1 := input.data.filter (fun c => !illegalRe c)
  let s2 := s1.filter (fun c => !controlRe c)
  let s3 := if reservedRe s2 then [] else s2
  let s4 := if windowsReservedRe s3 then [] else s3
  let s5 := dropTrailing windowsTrailingRe s4
  String.mk (truncate 255 s5)

/-! ## Identifier generator -/

/-- A value returned by `Math.random()`, a number in `[0, 1)`, given by the
base-36 digits that `toString(36)` prints after the point; the value `0` has none. -/
structure Draw where
  digits : List (Fin 36)
deriving DecidableEq

/-- The digits of a draw read as one base-36 numeral: the draw is the number
`numerator / 36 ^ digits.length`. -/
def Draw.numerator (r : Draw) : Nat :=
  r.digits.foldl (fun acc d => 36 * acc + d.val) 0

/-- The character of a base-36 digit, `0-9` then `a-z`. -/
def digitChar (d : Fin 36) : Char :=
  if d.val < 10 then Char.ofNat (48 + d.val) else Char.ofNat (87 + d.val)

/-- The rendering `Math.random().toString(36)`. -/
def Draw.toString36 (r : Draw) : String :=
  if r.digits.isEmpty then "0" else String.mk ('0' :: '.' :: r.digits.map digitChar)

/-- `generateId()`: `Math.random().toString(36).substring(2, 7)`. -/
def generateId (r : Draw) : String :=
  substring r.toString36 2 7

/-- `generateEditCode()`: `Math.random().toString(36).substring(2, 10)`. -/
def generateEditCode (r : Draw) : String :=
  substring r.toString36 2 10


/-! ## Entry record -/

/-- A timestamp string in the format `Date.prototype.toISOString` prints
(`YYYY-MM-DDTHH:mm:ss.sssZ`), given by the time value it spells, in milliseconds
since the epoch. The server puts no other timestamp string into an entry. -/
structure IsoTime where
  ms : Int
deriving DecidableEq

/-- A JavaScript `Date` with a valid time value, which is also what a
`TIMESTAMP WITH TIME ZONE` column holds. -/
structure Date where
  time : Int
deriving DecidableEq

/-- The method `Date.prototype.toISOString`. -/
def Date.toISOString (d : Date) : IsoTime :=
  ⟨d.time⟩

/-- The constructor call `new Date(s)` on a timestamp string. -/
def newDate (s : IsoTime) : Date :=
  ⟨s.ms⟩

/-- The entry object the handlers build and the backends persist. -/
structure Entry where
  id : String
  content : String
  editCode : String
  createdAt : IsoTime
  updatedAt : IsoTime
deriving DecidableEq

/-! ## Storage backends -/

/-- The data directory: file name to the entry its JSON text parses to. -/
abbrev Files := String → Option Entry

/-- `FileSystemBackend.getEntryPath`, as the file name inside the data directory. -/
def getEntryPath (id : String) : String :=
  sanitize id ++ ".json"

/-- `FileSystemBackend.loadEntry`. -/
def FileSystemBackend.loadEntry (files : Files) (ok : Bool) (id : String) : Option Entry :=
  if ok then files (getEntryPath id) else none

/-- `FileSystemBackend.saveEntry`: the new directory and the returned boolean. -/
def FileSystemBackend.saveEntry (files : Files) (ok : Bool) (entry : Entry) : Files × Bool :=
  if ok then (Function.update files (getEntryPath entry.id) (some entry), true)
  else (files, false)

/-- `FileSystemBackend.deleteEntry`. -/
def FileSystemBackend.deleteEntry (files : Files) (ok : Bool) (id : String) : Files × Bool :=
  if ok then (Function.update files (getEntryPath id) none, true) else (files, false)

/-- A row of table `entries` without its primary key `id`. -/
structure Row where
  content : String
  edit_code : String
  created_at : Date
  updated_at : Date
deriving DecidableEq

/-- The table `entries`: primary key `id` to the rest of the row. -/
abbrev Table := String → Option Row

/-- PostgreSQL rejects a text value that contains the code point 0. -/
def hasNul (s : String) : Bool :=
  s.data.any (fun c => c.toNat == 0)

/-- Assignment of a text parameter to a `TEXT` column. -/
def toText (s : String) : Option String :=
  if hasNul s then none else some s

/-- Assignment of a text parameter to a `VARCHAR(255)` column: a longer value is
an error unless every character past the 255th is a space, and then it is cut. -/
def toVarchar255 (s : String) : Option String :=
  if hasNul s then none
  else if s.length ≤ 255 then some s
  else if (s.data.drop 255).all (fun c => c.toNat == 32) then some (String.mk (s.data.take 255))
  else none

/-- `PostgreSQLBackend.loadEntry`: the `SELECT ... WHERE id = $1` and the row mapping. -/
def PostgreSQLBackend.loadEntry (table : Table) (ok : Bool) (id : String) : Option Entry :=
  if ok && !hasNul id then
    match table id with
    | none => none
    | some row => some
        { id := id
          content := row.content
          editCode := row.edit_code
          createdAt := row.created_at.toISOString
          updatedAt := row.updated_at.toISOString }
  else none

/-- `PostgreSQLBackend.saveEntry`: the `INSERT ... ON CONFLICT (id) DO UPDATE SET
content, edit_code, updated_at`. -/
def PostgreSQLBackend.saveEntry (table : Table) (ok : Bool) (entry : Entry) : Table × Bool :=
  match ok, toVarchar255 entry.id, toText entry.content, toVarchar255 entry.editCode with
  | true, some id, some content, some edit_code =>
    match table id with
    | none =>
      (Function.update table id (some
        { content := content
          edit_code := edit_code
          created_at := newDate entry.createdAt
          updated_at := newDate entry.updatedAt }), true)
    | some row =>
      (Function.update table id (some
        { content := content
          edit_code := edit_code
          created_at := row.created_at
          updated_at := newDate entry.updatedAt }), true)
  | _, _, _, _ => (table, false)

/-- `PostgreSQLBackend.deleteEntry`: the `DELETE FROM entries WHERE id = $1`. -/
def PostgreSQLBackend.deleteEntry (table : Table) (ok : Bool) (id : String) : Table × Bool :=
  if ok && !hasNul id then (Function.update table id none, true) else (table, false)

/-- The global `storage`: the backend selected by `STORAGE_BACKEND`, with its state. -/
inductive Storage
  | fs (files : Files)
  | pg (table : Table)

/-- `storage.loadEntry(id)`. -/
def Storage.loadEntry (storage : Storage) (ok : Bool) (id : String) : Option Entry :=
  match storage with
  | .fs files => FileSystemBackend.loadEntry files ok id
  | .pg table => PostgreSQLBackend.loadEntry table ok id

/-- `storage.saveEntry(entry)`. -/
def Storage.saveEntry (storage : Storage) (ok : Bool) (entry : Entry) : Storage × Bool :=
  match storage with
  | .fs files =>
    let r := FileSystemBackend.saveEntry files ok entry
    (.fs r.1, r.2)
  | .pg table =>
    let r := PostgreSQLBackend.saveEntry table ok entry
    (.pg r.1, r.2)

/-- `storage.deleteEntry(id)`. -/
def Storage.deleteEntry (storage : Storage) (ok : Bool) (id : String) : Storage × Bool :=
  match storage with
  | .fs files =>
    let r := FileSystemBackend.deleteEntry files ok id
    (.fs r.1, r.2)
  | .pg table =>
    let r := PostgreSQLBackend.deleteEntry table ok id
    (.pg r.1, r.2)

/-- The empty data directory. -/
def Files.empty : Files :=
  fun _ => none

/-- The empty table. -/
def Table.empty : Table :=
  fun _ => none

/-! ## Request handlers -/

/-- What a handler reads from outside the request: the values of `Math.random()`
inside `generateId` and `generateEditCode`, the values of `new Date()`, whether
each storage call completes, and, for the middleware `express.static("public")`
that runs before the routes, whether `public/` has a file or a directory at a
path. -/
structure Env where
  idDraw : Draw
  codeDraw : Draw
  now : Date
  now2 : Date
  loadOk : Bool
  load2Ok : Bool
  deleteOk : Bool
  saveOk : Bool
  publicHas : String → Bool

/-- The body of `POST /create`. -/
structure CreateBody where
  content : Option String
  customUrl : Option String
  editCode : Option String

/-- The body of `POST /:id/update`. -/
structure UpdateBody where
  content : Option String
  editCode : Option String
  newEditCode : Option String
  newUrl : Option String

/-- The object `publicEntry`: the entry without the property `editCode`. -/
structure PublicEntry where
  id : String
  content : String
  createdAt : IsoTime
  updatedAt : IsoTime
deriving DecidableEq

/-- What a handler sends. -/
inductive Response
  /-- The redirect to `/error.html?message=...`. -/
  | error (message : String)
  /-- The redirect to `/<id>/edit`, with the cookie `showEditCode` if it is set. -/
  | edit (id : String) (showEditCode : Option String)
  /-- Status 404 with `404.html`. -/
  | notFound
  /-- The entry content sent as `text/html`. -/
  | html (content : String)
  /-- The file `edit.html`. -/
  | editPage
  /-- The JSON body `publicEntry`. -/
  | json (publicEntry : PublicEntry)
  /-- Status 404 with the JSON body `error: "Entry not found"`. -/
  | jsonNotFound
  /-- The page `index.html`, sent for `GET /`. -/
  | home
  /-- The redirect to `/` of the route `GET /create`. -/
  | redirectHome
  /-- The answer of `express.static` from `public/` at the path. -/
  | publicFile (path : String)
deriving DecidableEq

/-- JavaScript truthiness of a request field: present and not the empty string. -/
def truthy (x : Option String) : Bool :=
  match x with
  | none => false
  | some s => s != ""

/-- The value `x.trim()` when `x && x.trim() !== ""` holds, else `none`. -/
def trimmedIfGiven (x : Option String) : Option String :=
  match x with
  | none => none
  | some s => if s != "" && !isBlank s then some (trim s) else none

/-- The handler of `POST /create`. -/
def create (storage : Storage) (env : Env) (body : CreateBody) : Storage × Response :=
  match trimmedIfGiven body.content with
  | none => (storage, .error "Content cannot be empty")
  | some content =>
    let id :=
      match trimmedIfGiven body.customUrl with
      | some customUrl => sanitize customUrl
      | none => generateId env.idDraw
    let finalEditCode :=
      match trimmedIfGiven body.editCode with
      | some editCode => editCode
      | none => generateEditCode env.codeDraw
    let userProvidedEditCode := (trimmedIfGiven body.editCode).isSome
    match storage.loadEntry env.loadOk id with
    | some _ => (storage, .error "URL already exists. Please choose a different one.")
    | none =>
      let entry : Entry :=
        { id := id
          content := content
          editCode := finalEditCode
          createdAt := env.now.toISOString
          updatedAt := env.now2.toISOString }
      let saved := storage.saveEntry env.saveOk entry
      if saved.2 then
        (saved.1, .edit id (if userProvidedEditCode then none else some finalEditCode))
      else (saved.1, .error "Failed to save entry")

/-- The handler of `GET /:id`, as the request `GET /` followed by the encoded `id`
reaches it. What is registered before it answers first: `express.static` when
`public/` has the path, the route `/`, which sends `index.html`, when the id is
empty (no URL binds `:id` to the empty string), and the route `/create`, which
redirects to `/`. -/
def view (storage : Storage) (env : Env) (id : String) : Response :=
  if id = "" then .home
  else if env.publicHas id then .publicFile id
  else if id = "create" then .redirectHome
  else
    match storage.loadEntry env.loadOk id with
    | none => .notFound
    | some entry => .html entry.content

/-- The handler of `GET /:id/edit`. -/
def editForm (storage : Storage) (ok : Bool) (id : String) : Response :=
  match storage.loadEntry ok id with
  | none => .notFound
  | some _ => .editPage

/-- The handler of `POST /:id/update`. -/
def update (storage : Storage) (env : Env) (id : String) (body : UpdateBody) :
    Storage × Response :=
  match storage.loadEntry env.loadOk id with
  | none => (storage, .notFound)
  | some entry =>
    if !truthy body.editCode || body.editCode != some entry.editCode then
      (storage, .error "Invalid edit code")
    else
      match trimmedIfGiven body.content with
      | none => (storage, .error "Content cannot be empty")
      | some content =>
        let newEditCode :=
          match trimmedIfGiven body.newEditCode with
          | some code => code
          | none => entry.editCode
        let persist (storage : Storage) (finalId : String) : Storage × Response :=
          let saved := storage.saveEntry env.saveOk
            { entry with
              id := finalId
              content := content
              editCode := newEditCode
              updatedAt := env.now.toISOString }
          if saved.2 then (saved.1, .edit finalId none)
          else (saved.1, .error "Failed to update entry")
        match trimmedIfGiven body.newUrl with
        | none => persist storage id
        | some newUrl =>
          if newUrl != id then
            let sanitizedNewUrl := sanitize newUrl
            match storage.loadEntry env.load2Ok sanitizedNewUrl with
            | some _ =>
              (storage, .error "New URL already exists. Please choose a different one.")
            | none => persist (storage.deleteEntry env.deleteOk id).1 sanitizedNewUrl
          else persist storage id

/-- The handler of `GET /api/entry/:id`. -/
def apiEntry (storage : Storage) (ok : Bool) (id : String) : Response :=
  match storage.loadEntry ok id with
  | none => .jsonNotFound
  | some entry =>
    .json
      { id := entry.id
        content := entry.content
        createdAt := entry.createdAt
        updatedAt := entry.updatedAt }

/-! ## Vocabulary of the statements -/

/-- The `createdAt` that `loadEntry(entry.id)` shows after a successful
`saveEntry(entry)`: the one of `entry`, except that the relational upsert keeps the
`created_at` of a row that is already there. -/
def Storage.keptCreatedAt (storage : Storage) (entry : Entry) : IsoTime :=
  match storage with
  | .fs _ => entry.createdAt
  | .pg table =>
    match table entry.id with
    | none => entry.createdAt
    | some row => row.created_at.toISOString

/-- The key under which a backend files the id `id`: the file name for the
filesystem backend, the id itself for the relational one. -/
def Storage.key (storage : Storage) (id : String) : String :=
  match storage with
  | .fs _ => getEntryPath id
  | .pg _ => id

/-- A call of the storage interface. -/
inductive StorageCall
  | loadEntry (id : String)
  | saveEntry (entry : Entry)
  | deleteEntry (id : String)

/-- What a call of the storage interface returns. -/
inductive CallResult
  | entry (found : Option Entry)
  | done (success : Bool)
deriving DecidableEq

/-- One call on the selected backend: the new state and the returned value. -/
def Storage.call (storage : Storage) (ok : Bool) (c : StorageCall) : Storage × CallResult :=
  match c with
  | .loadEntry id => (storage, .entry (storage.loadEntry ok id))
  | .saveEntry entry => ((storage.saveEntry ok entry).1, .done (storage.saveEntry ok entry).2)
  | .deleteEntry id => ((storage.deleteEntry ok id).1, .done (storage.deleteEntry ok id).2)

/-- The values returned by a sequence of calls, each with its completion flag. -/
def Storage.run (storage : Storage) : List (Bool × StorageCall) → List CallResult
  | [] => []
  | (ok, c) :: rest => (storage.call ok c).2 :: (storage.call ok c).1.run rest

/-- The calls on which the two backends are compared: every id is left unchanged by
`sanitize`; a saved entry has a content and an edit code the table accepts as they
are; and a save over a stored entry carries the `createdAt` that is stored. -/
def admissible (storage : Storage) : List (Bool × StorageCall) → Bool
  | [] => true
  | (_, .loadEntry id) :: rest => sanitize id == id && admissible storage rest
  | (ok, .saveEntry entry) :: rest =>
    sanitize entry.id == entry.id && !hasNul entry.content && !hasNul entry.editCode &&
    decide (entry.editCode.length ≤ 255) &&
    (match storage.loadEntry true entry.id with
     | none => true
     | some old => old.createdAt == entry.createdAt) &&
    admissible (storage.saveEntry ok entry).1 rest
  | (ok, .deleteEntry id) :: rest =>
    sanitize id == id && admissible (storage.deleteEntry ok id).1 rest

/-- A request to one of the routes that reach the storage. -/
inductive Request
  | create (body : CreateBody)
  | view (id : String)
  | editForm (id : String)
  | update (id : String) (body : UpdateBody)
  | apiEntry (id : String)

/-- The server on one request: the new state of the storage and the response. -/
def handle (storage : Storage) (env : Env) (request : Request) : Storage × Response :=
  match request with
  | .create body => create storage env body
  | .view id => (storage, view storage env id)
  | .editForm id => (storage, editForm storage env.loadOk id)
  | .update id body => update storage env id body
  | .apiEntry id => (storage, apiEntry storage env.loadOk id)

/-- The responses to a sequence of requests, each with its environment. -/
def serve (storage : Storage) : List (Env × Request) → List Response
  | [] => []
  | (env, request) :: rest =>
    (handle storage env request).2 :: serve (handle storage env request).1 rest

/-- A text that the columns `content` and `edit_code` both take as it is. -/
def plainText (x : Option String) : Bool :=
  match trimmedIfGiven x with
  | none => true
  | some s => !hasNul s && decide (s.length ≤ 255)

/-- The requests on which the two backends are compared: the loads complete, the id
in the URL and the id the handler derives from `customUrl`, `newUrl` or the draw are
left unchanged by `sanitize`, and the trimmed content and edit codes are free of the
code point 0, the edit codes of at most 255 characters. -/
def Request.plain (env : Env) (request : Request) : Bool :=
  env.loadOk && env.load2Ok &&
  match request with
  | .create body =>
    (match trimmedIfGiven body.customUrl with
     | some customUrl => sanitize (sanitize customUrl) == sanitize customUrl
     | none => sanitize (generateId env.idDraw) == generateId env.idDraw) &&
    (match trimmedIfGiven body.content with
     | some content => !hasNul content
     | none => true) &&
    plainText body.editCode
  | .view id => sanitize id == id
  | .editForm id => sanitize id == id
  | .update id body =>
    sanitize id == id &&
    (match trimmedIfGiven body.newUrl with
     | some newUrl => sanitize (sanitize newUrl) == sanitize newUrl
     | none => true) &&
    (match trimmedIfGiven body.content with
     | some content => !hasNul content
     | none => true) &&
    plainText body.newEditCode
  | .apiEntry id => sanitize id == id

/-- The filesystem store and the relational store hold the same entries: a load of
any id that `sanitize` leaves unchanged gives the same on both, and the edit codes
in the table are as the column type makes them. -/
def InStep : Storage → Storage → Prop
  | .fs files, .pg table =>
    (∀ id, sanitize id = id →
      (Storage.fs files).loadEntry true id = (Storage.pg table).loadEntry true id) ∧
    (∀ id row, table id = some row →
      hasNul row.edit_code = false ∧ row.edit_code.length ≤ 255)
  | _, _ => False

/-- The base-36 digits, `[a-z0-9]`. -/
def isBase36Char (c : Char) : Bool :=
  let n := c.toNat
  (48 ≤ n && n ≤ 57) || (97 ≤ n && n ≤ 122)

/-- A sample environment: `generateId` gives `abcde`, `generateEditCode` gives
`12345678`, the clock reads 2024-01-01T00:00:00.000Z and one millisecond later,
every storage call completes, and `public/` holds the four pages that `index.js`
names and the two scripts of `public/js`. -/
def sampleEnv : Env :=
  { idDraw := ⟨[10, 11, 12, 13, 14, 15, 16, 17, 18, 19, 20]⟩
    codeDraw := ⟨[1, 2, 3, 4, 5, 6, 7, 8, 9, 10, 11]⟩
    now := ⟨1704067200000⟩
    now2 := ⟨1704067200001⟩
    loadOk := true
    load2Ok := true
    deleteOk := true
    saveOk := true
    publicHas := fun path =>
      ["index.html", "404.html", "edit.html", "error.html", "js", "js/edit.js",
        "js/main.js"].contains path }

/-- The filesystem store after one create in `sampleEnv`: the entry `abcde` with
content `hello` and edit code `k`. -/
def sampleFs : Storage :=
  (create (.fs Files.empty) sampleEnv ⟨some "hello", none, some "k"⟩).1

/-- The relational store after the same create. -/
def samplePg : Storage :=
  (create (.pg Table.empty) sampleEnv ⟨some "hello", none, some "k"⟩).1

/-- The store `storage` with the edit code of the entry filed under `key` replaced
by `code`, and nothing else changed. -/
def Storage.setEditCode (storage : Storage) (key code : String) : Storage :=
  match storage with
  | .fs files =>
    .fs (Function.update files key ((files key).map (fun e => { e with editCode := code })))
  | .pg table =>
    .pg (Function.update table key ((table key).map (fun r => { r with edit_code := code })))

/-- The state of the storage after a sequence of requests. -/
def stateAfter (storage : Storage) : List (Env × Request) → Storage
  | [] => storage
  | (env, request) :: rest => stateAfter (handle storage env request).1 rest

/-- The entry stored under a key: what the file of that name holds, or the row of
that primary key read as an entry. -/
def Storage.stored (storage : Storage) (key : String) : Option Entry :=
  match storage with
  | .fs files => files key
  | .pg table =>
    match table key with
    | none => none
    | some row => some
        { id := key
          content := row.content
          editCode := row.edit_code
          createdAt := row.created_at.toISOString
          updatedAt := row.updated_at.toISOString }

/-! ## The original server, `server.js`

It keeps its entries in the data directory and has the three storage functions at
top level; `generateId` and `generateEditCode` read the same as in `index.js`. A
call of `fs.remove` that does not complete throws, and the `catch` of the handler
answers "Internal server error". -/

/-- `getEntryPath` of `server.js`, as the file name inside the data directory. -/
def Server.getEntryPath (id : String) : String :=
  sanitize id ++ ".json"

/-- `loadEntry` of `server.js`. -/
def Server.loadEntry (files : Files) (ok : Bool) (id : String) : Option Entry :=
  if ok then files (Server.getEntryPath id) else none

/-- `saveEntry` of `server.js`: the new directory and the returned boolean. -/
def Server.saveEntry (files : Files) (ok : Bool) (entry : Entry) : Files × Bool :=
  if ok then (Function.update files (Server.getEntryPath entry.id) (some entry), true)
  else (files, false)

/-- The handler of `POST /create` in `server.js`. -/
def Server.create (files : Files) (env : Env) (body : CreateBody) : Files × Response :=
  match trimmedIfGiven body.content with
  | none => (files, .error "Content cannot be empty")
  | some content =>
    let id :=
      match trimmedIfGiven body.customUrl with
      | some customUrl => sanitize customUrl
      | none => generateId env.idDraw
    let finalEditCode :=
      match trimmedIfGiven body.editCode with
      | some editCode => editCode
      | none => generateEditCode env.codeDraw
    let userProvidedEditCode := (trimmedIfGiven body.editCode).isSome
    match Server.loadEntry files env.loadOk id with
    | some _ => (files, .error "URL already exists. Please choose a different one.")
    | none =>
      let entry : Entry :=
        { id := id
          content := content
          editCode := finalEditCode
          createdAt := env.now.toISOString
          updatedAt := env.now2.toISOString }
      let saved := Server.saveEntry files env.saveOk entry
      if saved.2 then
        (saved.1, .edit id (if userProvidedEditCode then none else some finalEditCode))
      else (saved.1, .error "Failed to save entry")

/-- The handler of `GET /:id` in `server.js`, reached as in `index.js` after
`express.static` and the routes `/` and `/create`. -/
def Server.view (files : Files) (env : Env) (id : String) : Response :=
  if id = "" then .home
  else if env.publicHas id then .publicFile id
  else if id = "create" then .redirectHome
  else
    match Server.loadEntry files env.loadOk id with
    | none => .notFound
    | some entry => .html entry.content

/-- The handler of `GET /:id/edit` in `server.js`. -/
def Server.editForm (files : Files) (ok : Bool) (id : String) : Response :=
  match Server.loadEntry files ok id with
  | none => .notFound
  | some _ => .editPage

/-- The handler of `POST /:id/update` in `server.js`. -/
def Server.update (files : Files) (env : Env) (id : String) (body : UpdateBody) :
    Files × Response :=
  match Server.loadEntry files env.loadOk id with
  | none => (files, .notFound)
  | some entry =>
    if !truthy body.editCode || body.editCode != some entry.editCode then
      (files, .error "Invalid edit code")
    else
      match trimmedIfGiven body.content with
      | none => (files, .error "Content cannot be empty")
      | some content =>
        let newEditCode :=
          match trimmedIfGiven body.newEditCode with
          | some code => code
          | none => entry.editCode
        let persist (files : Files) (finalId : String) : Files × Response :=
          let saved := Server.saveEntry files env.saveOk
            { entry with
              id := finalId
              content := content
              editCode := newEditCode
              updatedAt := env.now.toISOString }
          if saved.2 then (saved.1, .edit finalId none)
          else (saved.1, .error "Failed to update entry")
        match trimmedIfGiven body.newUrl with
        | none => persist files id
        | some newUrl =>
          if newUrl != id then
            let sanitizedNewUrl := sanitize newUrl
            match Server.loadEntry files env.load2Ok sanitizedNewUrl with
            | some _ =>
              (files, .error "New URL already exists. Please choose a different one.")
            | none =>
              if env.deleteOk then
                persist (Function.update files (Server.getEntryPath id) none) sanitizedNewUrl
              else (files, .error "Internal server error")
          else persist files id

/-- The handler of `GET /api/entry/:id` in `server.js`. -/
def Server.apiEntry (files : Files) (ok : Bool) (id : String) : Response :=
  match Server.loadEntry files ok id with
  | none => .jsonNotFound
  | some entry =>
    .json
      { id := entry.id
        content := entry.content
        createdAt := entry.createdAt
        updatedAt := entry.updatedAt }

/-- The original server on one request: the new data directory and the response. -/
def Server.handle (files : Files) (env : Env) (request : Request) : Files × Response :=
  match request with
  | .create body => Server.create files env body
  | .view id => (files, Server.view files env id)
  | .editForm id => (files, Server.editForm files env.loadOk id)
  | .update id body => Server.update files env id body
  | .apiEntry id => (files, Server.apiEntry files env.loadOk id)

end PageBin

namespace PageBin

/-! ## Strings: basic facts -/

theorem isBlank_empty : isBlank "" = true := by decide

theorem trimmedIfGiven_none : trimmedIfGiven none = none := rfl

theorem trimmedIfGiven_some (s : String) :
    trimmedIfGiven (some s) = if isBlank s then none else some (trim s) := by
  unfold trimmedIfGiven
  by_cases hb : isBlank s = true
  · simp [hb]
  · have hne : s ≠ "" := by
      intro h
      exact hb (h ▸ isBlank_empty)
    simp [hb, hne]

theorem trimmedIfGiven_of_not_blank {s : String} (h : isBlank s = false) :
    trimmedIfGiven (some s) = some (trim s) := by
  simp [trimmedIfGiven_some, h]

theorem trimmedIfGiven_of_blank {s : String} (h : isBlank s = true) :
    trimmedIfGiven (some s) = none := by
  simp [trimmedIfGiven_some, h]

theorem substring_length_le (s : String) (a b : Nat) : (substring s a b).length ≤ b - a := by
  show ((s.data.drop a).take (b - a)).length ≤ b - a
  rw [List.length_take]
  exact Nat.min_le_left _ _

/-! ## Storage: basic facts -/

theorem toVarchar255_hasNul {s t : String} (h : toVarchar255 s = some t) : hasNul s = false := by
  unfold toVarchar255 at h
  by_cases hn : hasNul s = true
  · simp [hn] at h
  · simpa using hn

theorem toVarchar255_of_length_le {s : String} (hn : hasNul s = false) (hl : s.length ≤ 255) :
    toVarchar255 s = some s := by
  unfold toVarchar255
  rw [if_neg (by simp [hn]), if_pos hl]

theorem toText_eq_some {s t : String} (h : toText s = some t) : t = s := by
  unfold toText at h
  by_cases hn : hasNul s = true
  · simp [hn] at h
  · simp [hn] at h
    exact h.symm

theorem storage_saveEntry_failed (storage : Storage) (ok : Bool) (entry : Entry)
    (h : (storage.saveEntry ok entry).2 = false) : (storage.saveEntry ok entry).1 = storage := by
  cases storage with
  | fs files =>
    cases ok <;> simp_all [Storage.saveEntry, FileSystemBackend.saveEntry]
  | pg table =>
    simp only [Storage.saveEntry, PostgreSQLBackend.saveEntry] at h ⊢
    split at h
    · split at h <;> simp at h
    · rfl

theorem fs_load_save (files : Files) (entry : Entry) :
    FileSystemBackend.loadEntry (FileSystemBackend.saveEntry files true entry).1 true entry.id
      = some entry := by
  simp [FileSystemBackend.loadEntry, FileSystemBackend.saveEntry]

/-- A relational save that reports success has passed the three column
assignments and has written the row under the assigned key. -/
theorem pg_saveEntry_ok (table : Table) (ok : Bool) (entry : Entry)
    (h : (PostgreSQLBackend.saveEntry table ok entry).2 = true) :
    ok = true ∧ ∃ id content edit_code,
      toVarchar255 entry.id = some id ∧ toText entry.content = some content ∧
      toVarchar255 entry.editCode = some edit_code ∧
      (PostgreSQLBackend.saveEntry table ok entry).1 = Function.update table id (some
        { content := content
          edit_code := edit_code
          created_at :=
            match table id with
            | none => newDate entry.createdAt
            | some row => row.created_at
          updated_at := newDate entry.updatedAt }) := by
  cases ok with
  | false => simp [PostgreSQLBackend.saveEntry] at h
  | true =>
    cases h1 : toVarchar255 entry.id with
    | none => simp [PostgreSQLBackend.saveEntry, h1] at h
    | some id =>
      cases h2 : toText entry.content with
      | none => simp [PostgreSQLBackend.saveEntry, h1, h2] at h
      | some content =>
        cases h3 : toVarchar255 entry.editCode with
        | none => simp [PostgreSQLBackend.saveEntry, h1, h2, h3] at h
        | some edit_code =>
          refine ⟨rfl, id, content, edit_code, rfl, rfl, rfl, ?_⟩
          simp only [PostgreSQLBackend.saveEntry, h1, h2, h3]
          cases table id <;> rfl

theorem pg_load_save (table : Table) (ok : Bool) (entry : Entry)
    (h : (PostgreSQLBackend.saveEntry table ok entry).2 = true)
    (hid : entry.id.length ≤ 255) (hcode : entry.editCode.length ≤ 255) :
    PostgreSQLBackend.loadEntry (PostgreSQLBackend.saveEntry table ok entry).1 true entry.id
      = some { entry with createdAt := (Storage.pg table).keptCreatedAt entry } := by
  obtain ⟨-, id, content, edit_code, h1, h2, h3, hst⟩ :=
    pg_saveEntry_ok table ok entry h
  have hnul := toVarchar255_hasNul h1
  have e1 : id = entry.id := by
    rw [toVarchar255_of_length_le hnul hid] at h1
    exact (Option.some.inj h1).symm
  have e2 : content = entry.content := toText_eq_some h2
  have e3 : edit_code = entry.editCode := by
    rw [toVarchar255_of_length_le (toVarchar255_hasNul h3) hcode] at h3
    exact (Option.some.inj h3).symm
  subst e1 e2 e3
  rw [hst]
  cases hrow : table entry.id <;>
    simp [PostgreSQLBackend.loadEntry, hnul, hrow, Storage.keptCreatedAt, newDate,
      Date.toISOString]

theorem storage_load_save (storage : Storage) (ok : Bool) (entry : Entry)
    (h : (storage.saveEntry ok entry).2 = true)
    (hid : entry.id.length ≤ 255) (hcode : entry.editCode.length ≤ 255) :
    (storage.saveEntry ok entry).1.loadEntry true entry.id
      = some { entry with createdAt := storage.keptCreatedAt entry } := by
  cases storage with
  | fs files =>
    have hok : ok = true := by
      cases ok
      · simp [Storage.saveEntry, FileSystemBackend.saveEntry] at h
      · rfl
    subst hok
    simpa [Storage.saveEntry, Storage.loadEntry, Storage.keptCreatedAt] using
      fs_load_save files entry
  | pg table =>
    simpa [Storage.saveEntry, Storage.loadEntry] using
      pg_load_save table ok entry (by simpa [Storage.saveEntry] using h) hid hcode

/-! ## Sanitizing and trimming only remove characters -/

theorem dropTrailing_sublist (p : Char → Bool) (cs : List Char) :
    (dropTrailing p cs).Sublist cs := by
  have h := (List.dropWhile_sublist (l := cs.reverse) p).reverse
  simpa [dropTrailing] using h

theorem truncate_sublist (budget : Nat) (cs : List Char) : (truncate budget cs).Sublist cs := by
  induction cs generalizing budget with
  | nil => simp [truncate]
  | cons c cs ih =>
    unfold truncate
    split
    · exact (ih _).cons₂ c
    · exact List.nil_sublist _

theorem truncate_length (budget : Nat) (cs : List Char) : (truncate budget cs).length ≤ budget := by
  induction cs generalizing budget with
  | nil => simp [truncate]
  | cons c cs ih =>
    unfold truncate
    split
    · next h =>
      have h1 := ih (budget - c.utf8Size)
      have h2 := Char.utf8Size_pos c
      simp only [List.length_cons]
      omega
    · simp

/-- The characters of `sanitize s` are a subsequence of those of `s` that are
not control characters. -/
theorem sanitize_sublist_filtered (s : String) :
    (sanitize s).data.Sublist
      ((s.data.filter (fun c => !illegalRe c)).filter (fun c => !controlRe c)) := by
  unfold sanitize
  refine (truncate_sublist _ _).trans ((dropTrailing_sublist _ _).trans ?_)
  split
  · exact List.nil_sublist _
  · split
    · exact List.nil_sublist _
    · exact List.Sublist.refl _

theorem sanitize_sublist (s : String) : (sanitize s).data.Sublist s.data :=
  (sanitize_sublist_filtered s).trans ((List.filter_sublist _).trans (List.filter_sublist _))

theorem trim_sublist (s : String) : (trim s).data.Sublist s.data :=
  (dropTrailing_sublist _ _).trans (List.dropWhile_sublist _)

theorem sanitize_length (s : String) : (sanitize s).length ≤ 255 :=
  truncate_length 255 _

theorem sanitize_hasNul (s : String) : hasNul (sanitize s) = false := by
  unfold hasNul
  rw [List.any_eq_false]
  intro c hc
  have hmem := (sanitize_sublist_filtered s).subset hc
  have hctl := (List.mem_filter.mp hmem).2
  simp only [controlRe, Bool.not_eq_true', Bool.or_eq_false_iff, decide_eq_false_iff_not] at hctl
  have h0 : ¬ c.toNat ≤ 0x1f := hctl.1
  simp only [beq_iff_eq, Bool.not_eq_true]
  omega

/-- A customUrl that `sanitize` changes is not the id derived from it. -/
theorem ne_sanitize_trim_of_sanitize_ne {raw : String} (h : sanitize raw ≠ raw) :
    raw ≠ sanitize (trim raw) := by
  intro heq
  have h1 : raw.data.Sublist (trim raw).data := by
    have := sanitize_sublist (trim raw)
    rwa [← heq] at this
  have h2 : trim raw = raw := String.ext ((trim_sublist raw).antisymm h1)
  rw [h2] at heq
  exact h heq.symm

/-! ## Storage: what a call leaves alone -/

theorem getEntryPath_eq_iff (a b : String) :
    getEntryPath a = getEntryPath b ↔ sanitize a = sanitize b := by
  constructor
  · intro h
    have h1 : (sanitize a).data ++ ".json".data = (sanitize b).data ++ ".json".data := by
      have := congrArg String.data h
      simpa [getEntryPath, String.data_append] using this
    exact String.ext (List.append_cancel_right h1)
  · intro h
    simp [getEntryPath, h]

theorem storage_load_of_key_eq (storage : Storage) (ok : Bool) {a b : String}
    (h : storage.key a = storage.key b) : storage.loadEntry ok a = storage.loadEntry ok b := by
  cases storage with
  | fs files =>
    simp only [Storage.key] at h
    simp [Storage.loadEntry, FileSystemBackend.loadEntry, h]
  | pg table =>
    simp only [Storage.key] at h
    rw [h]

theorem storage_load_ok {storage : Storage} {ok : Bool} {id : String} {e : Entry}
    (h : storage.loadEntry ok id = some e) : ok = true := by
  cases ok with
  | true => rfl
  | false =>
    cases storage <;>
      simp [Storage.loadEntry, FileSystemBackend.loadEntry, PostgreSQLBackend.loadEntry] at h

theorem storage_key_deleteEntry (storage : Storage) (ok : Bool) (id a : String) :
    (storage.deleteEntry ok id).1.key a = storage.key a := by
  cases storage <;> rfl

theorem storage_load_delete_same (storage : Storage) (ok : Bool) (id : String) :
    (storage.deleteEntry true id).1.loadEntry ok id = none := by
  cases storage with
  | fs files =>
    cases ok <;>
      simp [Storage.deleteEntry, Storage.loadEntry, FileSystemBackend.deleteEntry,
        FileSystemBackend.loadEntry]
  | pg table =>
    simp only [Storage.deleteEntry, Storage.loadEntry, PostgreSQLBackend.deleteEntry,
      PostgreSQLBackend.loadEntry]
    by_cases hn : hasNul id = true
    · simp [hn]
    · cases ok <;> simp [hn]

theorem storage_load_delete_other (storage : Storage) (ok ok2 : Bool) (id a : String)
    (h : storage.key a ≠ storage.key id) :
    (storage.deleteEntry ok id).1.loadEntry ok2 a = storage.loadEntry ok2 a := by
  cases storage with
  | fs files =>
    simp only [Storage.key] at h
    cases ok <;>
      simp [Storage.deleteEntry, Storage.loadEntry, FileSystemBackend.deleteEntry,
        FileSystemBackend.loadEntry, Function.update_noteq h]
  | pg table =>
    simp only [Storage.key] at h
    simp only [Storage.deleteEntry, PostgreSQLBackend.deleteEntry]
    by_cases hd : (ok && !hasNul id) = true
    · rw [if_pos hd]
      simp only [Storage.loadEntry, PostgreSQLBackend.loadEntry, Function.update_noteq h]
    · rw [if_neg hd]

theorem storage_load_save_other (storage : Storage) (ok ok2 : Bool) (entry : Entry) (a : String)
    (hid : entry.id.length ≤ 255) (h : storage.key a ≠ storage.key entry.id) :
    (storage.saveEntry ok entry).1.loadEntry ok2 a = storage.loadEntry ok2 a := by
  cases storage with
  | fs files =>
    simp only [Storage.key] at h
    cases ok <;>
      simp [Storage.saveEntry, Storage.loadEntry, FileSystemBackend.saveEntry,
        FileSystemBackend.loadEntry, Function.update_noteq h]
  | pg table =>
    simp only [Storage.key] at h
    simp only [Storage.saveEntry, Storage.loadEntry]
    cases hs : (PostgreSQLBackend.saveEntry table ok entry).2 with
    | false =>
      have := storage_saveEntry_failed (.pg table) ok entry (by simpa [Storage.saveEntry] using hs)
      simp only [Storage.saveEntry, Storage.pg.injEq] at this
      rw [this]
    | true =>
      obtain ⟨-, id, content, edit_code, h1, -, -, hst⟩ := pg_saveEntry_ok table ok entry hs
      have e1 : id = entry.id := by
        rw [toVarchar255_of_length_le (toVarchar255_hasNul h1) hid] at h1
        exact (Option.some.inj h1).symm
      subst e1
      rw [hst]
      simp [PostgreSQLBackend.loadEntry, Function.update_noteq h]

theorem storage_load_save_content (storage : Storage) (ok : Bool) (entry : Entry)
    (h : (storage.saveEntry ok entry).2 = true) (hid : entry.id.length ≤ 255) :
    ∃ e, (storage.saveEntry ok entry).1.loadEntry true entry.id = some e ∧
      e.id = entry.id ∧ e.content = entry.content := by
  cases storage with
  | fs files =>
    cases ok with
    | false => simp [Storage.saveEntry, FileSystemBackend.saveEntry] at h
    | true =>
      exact ⟨entry, by
        simpa [Storage.saveEntry, Storage.loadEntry] using fs_load_save files entry, rfl, rfl⟩
  | pg table =>
    obtain ⟨-, id, content, edit_code, h1, h2, -, hst⟩ :=
      pg_saveEntry_ok table ok entry (by simpa [Storage.saveEntry] using h)
    have hnul := toVarchar255_hasNul h1
    have e1 : id = entry.id := by
      rw [toVarchar255_of_length_le hnul hid] at h1
      exact (Option.some.inj h1).symm
    have e2 : content = entry.content := toText_eq_some h2
    subst e1 e2
    simp only [Storage.saveEntry, Storage.loadEntry]
    rw [hst]
    simp [PostgreSQLBackend.loadEntry, hnul]

/-! ## Identifier generator: basic facts -/

theorem generateId_data (r : Draw) : (generateId r).data = (r.digits.map digitChar).take 5 := by
  cases r with
  | mk digits =>
    cases digits with
    | nil => rfl
    | cons d ds => simp [generateId, substring, Draw.toString36]

theorem generateEditCode_data (r : Draw) :
    (generateEditCode r).data = (r.digits.map digitChar).take 8 := by
  cases r with
  | mk digits =>
    cases digits with
    | nil => rfl
    | cons d ds => simp [generateEditCode, substring, Draw.toString36]

theorem digitChar_ne_nul : ∀ d : Fin 36, ((digitChar d).toNat == 0) = false := by decide

theorem hasNul_of_digits (s : String) (ds : List (Fin 36)) (n : Nat)
    (h : s.data = (ds.map digitChar).take n) : hasNul s = false := by
  unfold hasNul
  rw [h, List.any_eq_false]
  intro c hc
  obtain ⟨d, -, rfl⟩ := List.mem_map.mp (List.mem_of_mem_take hc)
  simp [digitChar_ne_nul d]

theorem generateId_hasNul (r : Draw) : hasNul (generateId r) = false :=
  hasNul_of_digits _ r.digits 5 (generateId_data r)

theorem generateId_length (r : Draw) : (generateId r).length ≤ 255 :=
  Nat.le_trans (substring_length_le _ 2 7) (by decide)

theorem generateEditCode_length (r : Draw) : (generateEditCode r).length ≤ 255 :=
  Nat.le_trans (substring_length_le _ 2 10) (by decide)

/-! ## Create, then view -/

theorem generateId_ne_create (r : Draw) : generateId r ≠ "create" := by
  intro h
  have hlen := substring_length_le (Draw.toString36 r) 2 7
  have h6 : (generateId r).length = 6 := by rw [h]; decide
  have h5 : (generateId r).length ≤ 5 := hlen
  omega

/-- C1 (as amended). For content that is not blank after trimming, with `customUrl`
and `editCode` absent, `POST /create` answers "URL already exists" when an entry is
found under the generated id, "Failed to save entry" when `saveEntry` reports
failure, and otherwise redirects to the generated id, revealing the generated edit
code; a following `GET /:id` of that id sends the trimmed content, when the id is
not empty, `public/` has nothing at that path and the load completes. -/
theorem create_then_view (storage : Storage) (env : Env) (content : String)
    (hc : isBlank content = false) :
    (∀ e, storage.loadEntry env.loadOk (generateId env.idDraw) = some e →
      create storage env ⟨some content, none, none⟩
        = (storage, .error "URL already exists. Please choose a different one.")) ∧
    (storage.loadEntry env.loadOk (generateId env.idDraw) = none →
      (storage.saveEntry env.saveOk
        ⟨generateId env.idDraw, trim content, generateEditCode env.codeDraw,
          env.now.toISOString, env.now2.toISOString⟩).2 = false →
      create storage env ⟨some content, none, none⟩
        = (storage, .error "Failed to save entry")) ∧
    (storage.loadEntry env.loadOk (generateId env.idDraw) = none →
      (storage.saveEntry env.saveOk
        ⟨generateId env.idDraw, trim content, generateEditCode env.codeDraw,
          env.now.toISOString, env.now2.toISOString⟩).2 = true →
      (create storage env ⟨some content, none, none⟩).2
        = .edit (generateId env.idDraw) (some (generateEditCode env.codeDraw)) ∧
      ∀ later : Env, generateId env.idDraw ≠ "" →
        later.publicHas (generateId env.idDraw) = false → later.loadOk = true →
        view (create storage env ⟨some content, none, none⟩).1 later (generateId env.idDraw)
          = .html (trim content)) := by
  have hcontent := trimmedIfGiven_of_not_blank hc
  refine ⟨?_, ?_, ?_⟩
  · intro e he
    simp [create, hcontent, trimmedIfGiven_none, he]
  · intro hfree hsave
    simp only [create, hcontent, trimmedIfGiven_none, hfree, hsave]
    rw [storage_saveEntry_failed _ _ _ hsave]
    simp
  · intro hfree hsave
    have hload := storage_load_save storage env.saveOk _ hsave
      (generateId_length env.idDraw) (generateEditCode_length env.codeDraw)
    simp only [create, hcontent, trimmedIfGiven_none, hfree, hsave]
    refine ⟨by simp, ?_⟩
    intro later hne hpublic hok
    simp only [view, if_neg hne, hpublic, if_neg (generateId_ne_create env.idDraw), hok]
    simp [hload]

/-- An instance on the empty data directory: the create of `hello` succeeds and the view
sends `hello`. -/
theorem create_then_view_witness :
    isBlank "hello" = false ∧
    (create (.fs Files.empty) sampleEnv ⟨some "hello", none, none⟩).2
      = .edit (generateId sampleEnv.idDraw) (some (generateEditCode sampleEnv.codeDraw)) ∧
    view (create (.fs Files.empty) sampleEnv ⟨some "hello", none, none⟩).1 sampleEnv
      (generateId sampleEnv.idDraw) = .html (trim "hello") :=
  ⟨by decide,
    ((create_then_view (.fs Files.empty) sampleEnv "hello" (by decide)).2.2
      (by decide) (by decide)).1,
    ((create_then_view (.fs Files.empty) sampleEnv "hello" (by decide)).2.2
      (by decide) (by decide)).2 sampleEnv (by decide) (by decide) rfl⟩

/-- C1 fails as stated. The content `" hi "` is not blank, yet the view after the
create sends `"hi"`, not the submitted string; and a second create that draws the
same id does not succeed. -/
theorem create_then_view_counterexample :
    isBlank " hi " = false ∧
    (create (.fs Files.empty) sampleEnv ⟨some " hi ", none, none⟩).2
      = .edit "abcde" (some "12345678") ∧
    view (create (.fs Files.empty) sampleEnv ⟨some " hi ", none, none⟩).1 sampleEnv "abcde"
      = .html "hi" ∧
    view (create (.fs Files.empty) sampleEnv ⟨some " hi ", none, none⟩).1 sampleEnv "abcde"
      ≠ .html " hi " ∧
    isBlank "again" = false ∧
    (create (create (.fs Files.empty) sampleEnv ⟨some " hi ", none, none⟩).1 sampleEnv
      ⟨some "again", none, none⟩).2
      = .error "URL already exists. Please choose a different one." := by
  decide

/-! ## Create with blank content -/

theorem isBlank_of_all_whitespace (s : String)
    (h : ∀ c ∈ s.data, isJsWhitespace c = true) : isBlank s = true := by
  have h1 : s.data.dropWhile isJsWhitespace = [] := List.dropWhile_eq_nil_iff.mpr h
  simp [isBlank, trim, dropTrailing, h1]

/-- C2. Whatever the store, the backend, `customUrl` and `editCode` are, `POST /create`
with content that is absent, empty or all white space answers "Content cannot be
empty" and leaves the store as it was. -/
theorem create_blank_content (storage : Storage) (env : Env) (body : CreateBody)
    (h : body.content = none ∨
      ∃ s, body.content = some s ∧ ∀ c ∈ s.data, isJsWhitespace c = true) :
    create storage env body = (storage, .error "Content cannot be empty") := by
  rcases h with h | ⟨s, hs, hws⟩
  · simp [create, h, trimmedIfGiven_none]
  · simp [create, hs, trimmedIfGiven_of_blank (isBlank_of_all_whitespace s hws)]

/-- An instance on the empty table: content of white space only, with a custom URL and
an edit code. -/
theorem create_blank_content_witness :
    create (.pg Table.empty) sampleEnv ⟨some " \t\n", some "a/b", some "secret"⟩
      = (.pg Table.empty, .error "Content cannot be empty") :=
  create_blank_content (.pg Table.empty) sampleEnv ⟨some " \t\n", some "a/b", some "secret"⟩
    (Or.inr ⟨" \t\n", rfl, by decide⟩)

/-! ## Create with a custom URL that is taken -/

/-- C3 (as amended). For every store state and every non-blank content, `POST /create`
with a non-blank `customUrl` answers "URL already exists" and leaves the store as it
was whenever `loadEntry` finds an entry under `sanitize(customUrl.trim())`, the id
the handler derives from `customUrl`. -/
theorem create_url_taken (storage : Storage) (env : Env) (body : CreateBody)
    (content customUrl : String) (e : Entry)
    (hcontent : body.content = some content) (hc : isBlank content = false)
    (hurl : body.customUrl = some customUrl) (hu : isBlank customUrl = false)
    (hfound : storage.loadEntry env.loadOk (sanitize (trim customUrl)) = some e) :
    create storage env body
      = (storage, .error "URL already exists. Please choose a different one.") := by
  simp [create, hcontent, hurl, trimmedIfGiven_of_not_blank hc,
    trimmedIfGiven_of_not_blank hu, hfound]

/-- An instance: after a create with `customUrl` `a/b`, a second create with the same
`customUrl` is refused and the store stays as it was. -/
theorem create_url_taken_witness :
    (create (.fs Files.empty) sampleEnv ⟨some "one", some "a/b", none⟩).1.loadEntry true
        (sanitize (trim "a/b")) ≠ none ∧
    create (create (.fs Files.empty) sampleEnv ⟨some "one", some "a/b", none⟩).1 sampleEnv
        ⟨some "two", some "a/b", none⟩
      = ((create (.fs Files.empty) sampleEnv ⟨some "one", some "a/b", none⟩).1,
          .error "URL already exists. Please choose a different one.") :=
  ⟨by decide,
    create_url_taken _ sampleEnv ⟨some "two", some "a/b", none⟩ "two" "a/b"
      ⟨"ab", "one", "12345678", ⟨1704067200000⟩, ⟨1704067200001⟩⟩
      rfl (by decide) rfl (by decide) (by decide)⟩

/-- C3 fails as stated, on both backends. After a create with `customUrl` `"/ ab"`
the store holds an entry whose id is `" ab"`; a create whose `customUrl` is that
very id is not refused: it is trimmed to `"ab"` and a second entry is created. -/
theorem create_url_taken_counterexample :
    (create (.pg Table.empty) sampleEnv ⟨some "one", some "/ ab", some "k"⟩).1.loadEntry true
        " ab" = some ⟨" ab", "one", "k", ⟨1704067200000⟩, ⟨1704067200001⟩⟩ ∧
    (create (create (.pg Table.empty) sampleEnv ⟨some "one", some "/ ab", some "k"⟩).1
        sampleEnv ⟨some "two", some " ab", none⟩).2 = .edit "ab" (some "12345678") ∧
    (create (.fs Files.empty) sampleEnv ⟨some "one", some "/ ab", some "k"⟩).1.loadEntry true
        " ab" = some ⟨" ab", "one", "k", ⟨1704067200000⟩, ⟨1704067200001⟩⟩ ∧
    (create (create (.fs Files.empty) sampleEnv ⟨some "one", some "/ ab", some "k"⟩).1
        sampleEnv ⟨some "two", some " ab", none⟩).2 = .edit "ab" (some "12345678") := by
  decide

/-! ## Update and the edit code -/

/-- C4 (as amended). For an entry that `loadEntry` finds, `POST /:id/update` with a
supplied `editCode` that is absent or differs from the stored one answers "Invalid
edit code" whatever the other fields are, and leaves the store as it was; an update
whose supplied `editCode` is not empty and equals the stored one is not answered
with "Invalid edit code". -/
theorem update_edit_code (storage : Storage) (env : Env) (id : String) (body : UpdateBody)
    (entry : Entry) (hfound : storage.loadEntry env.loadOk id = some entry) :
    (body.editCode ≠ some entry.editCode →
      update storage env id body = (storage, .error "Invalid edit code")) ∧
    (body.editCode = some entry.editCode → entry.editCode ≠ "" →
      (update storage env id body).2 ≠ .error "Invalid edit code") := by
  constructor
  · intro hne
    simp [update, hfound, hne]
  · intro heq hnonempty
    simp only [update, hfound, heq, truthy]
    have h1 : (entry.editCode != "") = true := by simpa using hnonempty
    simp only [h1, bne_self_eq_false, Bool.not_true, Bool.or_false, Bool.false_eq_true,
      if_false]
    split
    · simp
    · split
      · split <;> simp
      · split
        · split
          · simp
          · split <;> simp
        · split <;> simp

/-- An instance on the sample store: the edit code `K` is refused whatever else is sent,
the edit code `k` is not. -/
theorem update_edit_code_witness :
    sampleFs.loadEntry sampleEnv.loadOk "abcde"
      = some ⟨"abcde", "hello", "k", ⟨1704067200000⟩, ⟨1704067200001⟩⟩ ∧
    update sampleFs sampleEnv "abcde" ⟨some "world", some "K", some "new", some "greet"⟩
      = (sampleFs, .error "Invalid edit code") ∧
    (update sampleFs sampleEnv "abcde" ⟨some "world", some "k", none, none⟩).2
      ≠ .error "Invalid edit code" :=
  ⟨by decide,
    (update_edit_code sampleFs sampleEnv "abcde"
      ⟨some "world", some "K", some "new", some "greet"⟩
      ⟨"abcde", "hello", "k", ⟨1704067200000⟩, ⟨1704067200001⟩⟩ (by decide)).1 (by decide),
    (update_edit_code sampleFs sampleEnv "abcde" ⟨some "world", some "k", none, none⟩
      ⟨"abcde", "hello", "k", ⟨1704067200000⟩, ⟨1704067200001⟩⟩ (by decide)).2
      rfl (by decide)⟩

/-- C4 fails as stated. When `Math.random()` returns 0 inside `generateEditCode`, the
entry is stored with the empty edit code; an update that supplies exactly that edit
code is answered with "Invalid edit code". -/
theorem update_edit_code_counterexample :
    (create (.fs Files.empty) { sampleEnv with codeDraw := ⟨[]⟩ }
        ⟨some "hello", none, none⟩).1.loadEntry true "abcde"
      = some ⟨"abcde", "hello", "", ⟨1704067200000⟩, ⟨1704067200001⟩⟩ ∧
    (update (create (.fs Files.empty) { sampleEnv with codeDraw := ⟨[]⟩ }
        ⟨some "hello", none, none⟩).1 sampleEnv "abcde"
        ⟨some "world", some "", none, none⟩).2 = .error "Invalid edit code" := by
  decide

/-! ## Update with a new URL -/

/-- C5 fails on the code. The entry `abcde` is renamed to `greet` with the right edit
code while the `deleteEntry` call does not complete: the handler does not look at
what `deleteEntry` returns, saves under the new id and answers with the redirect of
success, and the entry is then live under both ids. -/
theorem update_rename_failed_delete :
    view sampleFs sampleEnv "abcde" = .html "hello" ∧
    (update sampleFs { sampleEnv with deleteOk := false } "abcde"
      ⟨some "world", some "k", none, some "greet"⟩).2 = .edit "greet" none ∧
    view (update sampleFs { sampleEnv with deleteOk := false } "abcde"
      ⟨some "world", some "k", none, some "greet"⟩).1 sampleEnv "greet" = .html "world" ∧
    view (update sampleFs { sampleEnv with deleteOk := false } "abcde"
      ⟨some "world", some "k", none, some "greet"⟩).1 sampleEnv "abcde" = .html "hello" ∧
    (update samplePg { sampleEnv with deleteOk := false } "abcde"
      ⟨some "world", some "k", none, some "greet"⟩).2 = .edit "greet" none ∧
    view (update samplePg { sampleEnv with deleteOk := false } "abcde"
      ⟨some "world", some "k", none, some "greet"⟩).1 sampleEnv "abcde" = .html "hello" := by
  decide

/-! ## Length of the generated tokens -/

/-- C9 fails on the code. `Math.random()` can return 1/2, which `toString(36)` prints
as `0.i`, and 0, printed as `0`: `generateId` and `generateEditCode` then return one
character and none, not 5 and 8. -/
theorem generated_tokens_short :
    Draw.numerator ⟨[18]⟩ * 2 = 36 ^ (Draw.mk [18]).digits.length ∧
    Draw.toString36 ⟨[18]⟩ = "0.i" ∧
    generateId ⟨[18]⟩ = "i" ∧ (generateId ⟨[18]⟩).length = 1 ∧
    generateEditCode ⟨[18]⟩ = "i" ∧ (generateEditCode ⟨[18]⟩).length = 1 ∧
    Draw.toString36 ⟨[]⟩ = "0" ∧
    generateId ⟨[]⟩ = "" ∧ generateEditCode ⟨[]⟩ = "" := by
  decide

theorem digitChar_base36 : ∀ d : Fin 36, isBase36Char (digitChar d) = true := by decide

/-- What the generators do return: the first 5, or 8, base-36 digits of the printed
draw, fewer when it prints fewer. -/
theorem generated_tokens_shape (r : Draw) :
    (generateId r).length = min 5 r.digits.length ∧
    (generateEditCode r).length = min 8 r.digits.length ∧
    (∀ c ∈ (generateId r).data, isBase36Char c = true) ∧
    (∀ c ∈ (generateEditCode r).data, isBase36Char c = true) := by
  refine ⟨?_, ?_, ?_, ?_⟩
  · show (generateId r).data.length = _
    rw [generateId_data, List.length_take, List.length_map]
  · show (generateEditCode r).data.length = _
    rw [generateEditCode_data, List.length_take, List.length_map]
  · intro c hc
    rw [generateId_data] at hc
    obtain ⟨d, -, rfl⟩ := List.mem_map.mp (List.mem_of_mem_take hc)
    exact digitChar_base36 d
  · intro c hc
    rw [generateEditCode_data] at hc
    obtain ⟨d, -, rfl⟩ := List.mem_map.mp (List.mem_of_mem_take hc)
    exact digitChar_base36 d

/-! ## The read-only projection -/

/-- C10. For an entry filed in the data directory, or a row of the table,
`GET /api/entry/:id` sends the id, the content and the two timestamps and no edit
code; and its response is the same in two stores that differ only in the edit code
of one entry. -/
theorem apiEntry_hides_editCode :
    (∀ (files : Files) (id : String) (e : Entry), files (getEntryPath id) = some e →
      apiEntry (.fs files) true id = .json ⟨e.id, e.content, e.createdAt, e.updatedAt⟩) ∧
    (∀ (table : Table) (id : String) (row : Row), table id = some row → hasNul id = false →
      apiEntry (.pg table) true id
        = .json ⟨id, row.content, row.created_at.toISOString, row.updated_at.toISOString⟩) ∧
    (∀ (storage : Storage) (key code : String) (ok : Bool) (id : String),
      apiEntry (storage.setEditCode key code) ok id = apiEntry storage ok id) := by
  refine ⟨?_, ?_, ?_⟩
  · intro files id e h
    simp [apiEntry, Storage.loadEntry, FileSystemBackend.loadEntry, h]
  · intro table id row h hn
    simp [apiEntry, Storage.loadEntry, PostgreSQLBackend.loadEntry, h, hn]
  · intro storage key code ok id
    cases storage with
    | fs files =>
      simp only [apiEntry, Storage.setEditCode, Storage.loadEntry, FileSystemBackend.loadEntry]
      cases ok
      · rfl
      · by_cases hk : getEntryPath id = key
        · subst hk
          cases h : files (getEntryPath id) <;> simp [h]
        · simp [Function.update_noteq hk]
    | pg table =>
      simp only [apiEntry, Storage.setEditCode, Storage.loadEntry, PostgreSQLBackend.loadEntry]
      by_cases hc : (ok && !hasNul id) = true
      · by_cases hk : id = key
        · subst hk
          cases h : table id <;> simp [hc, h]
        · simp [hc, Function.update_noteq hk]
      · simp [hc]

/-- An instance: the projection of the sample entry, and the same response after its
edit code is replaced. -/
theorem apiEntry_hides_editCode_witness :
    apiEntry
        (.fs (Function.update Files.empty "abcde.json"
          (some ⟨"abcde", "hello", "k", ⟨1704067200000⟩, ⟨1704067200001⟩⟩))) true "abcde"
      = .json ⟨"abcde", "hello", ⟨1704067200000⟩, ⟨1704067200001⟩⟩ ∧
    apiEntry (sampleFs.setEditCode "abcde.json" "other") true "abcde"
      = apiEntry sampleFs true "abcde" :=
  ⟨apiEntry_hides_editCode.1
      (Function.update Files.empty "abcde.json"
        (some ⟨"abcde", "hello", "k", ⟨1704067200000⟩, ⟨1704067200001⟩⟩))
      "abcde" ⟨"abcde", "hello", "k", ⟨1704067200000⟩, ⟨1704067200001⟩⟩ (by decide),
    apiEntry_hides_editCode.2.2 sampleFs "abcde.json" "other" true "abcde"⟩

/-! ## Save, then load -/

/-- C6 (as amended). If `saveEntry(e)` reports success, a `loadEntry(e.id)` that
completes returns, on the filesystem backend, exactly `e`; on the relational backend,
for an id and an edit code of at most 255 characters, an entry with the id, content,
edit code and `updatedAt` of `e`, whose `createdAt` is that of `e` when no row had the
id and otherwise the `created_at` the row already had. -/
theorem save_then_load :
    (∀ (files : Files) (ok : Bool) (e : Entry),
      (FileSystemBackend.saveEntry files ok e).2 = true →
      FileSystemBackend.loadEntry (FileSystemBackend.saveEntry files ok e).1 true e.id
        = some e) ∧
    (∀ (table : Table) (ok : Bool) (e : Entry),
      (PostgreSQLBackend.saveEntry table ok e).2 = true →
      e.id.length ≤ 255 → e.editCode.length ≤ 255 →
      PostgreSQLBackend.loadEntry (PostgreSQLBackend.saveEntry table ok e).1 true e.id
        = some
          { e with
            createdAt :=
              match table e.id with
              | none => e.createdAt
              | some row => row.created_at.toISOString }) := by
  constructor
  · intro files ok e h
    cases ok with
    | false => simp [FileSystemBackend.saveEntry] at h
    | true => exact fs_load_save files e
  · intro table ok e h hid hcode
    exact pg_load_save table ok e h hid hcode

/-- An instance on each backend: a first save of an entry, then its load. -/
theorem save_then_load_witness :
    FileSystemBackend.loadEntry
        (FileSystemBackend.saveEntry Files.empty true
          ⟨"a/b", "one", "k", ⟨1704067200000⟩, ⟨1704067200000⟩⟩).1 true "a/b"
      = some ⟨"a/b", "one", "k", ⟨1704067200000⟩, ⟨1704067200000⟩⟩ ∧
    PostgreSQLBackend.loadEntry
        (PostgreSQLBackend.saveEntry Table.empty true
          ⟨"a", "one", "k", ⟨1704067200000⟩, ⟨1704067200000⟩⟩).1 true "a"
      = some ⟨"a", "one", "k", ⟨1704067200000⟩, ⟨1704067200000⟩⟩ :=
  ⟨save_then_load.1 Files.empty true ⟨"a/b", "one", "k", ⟨1704067200000⟩, ⟨1704067200000⟩⟩
      (by decide),
    save_then_load.2 Table.empty true ⟨"a", "one", "k", ⟨1704067200000⟩, ⟨1704067200000⟩⟩
      (by decide) (by decide) (by decide)⟩

/-- C6 fails as stated on the relational backend. A row `a` created at
2024-01-01 is there; `saveEntry` of an entry `a` whose `createdAt` is 2024-01-02
reports success, and `loadEntry("a")` then shows the `createdAt` of 2024-01-01. -/
theorem save_then_load_counterexample :
    (PostgreSQLBackend.saveEntry
      (PostgreSQLBackend.saveEntry Table.empty true
        ⟨"a", "one", "k", ⟨1704067200000⟩, ⟨1704067200000⟩⟩).1 true
      ⟨"a", "two", "k2", ⟨1704153600000⟩, ⟨1704153600000⟩⟩).2 = true ∧
    PostgreSQLBackend.loadEntry
      (PostgreSQLBackend.saveEntry
        (PostgreSQLBackend.saveEntry Table.empty true
          ⟨"a", "one", "k", ⟨1704067200000⟩, ⟨1704067200000⟩⟩).1 true
        ⟨"a", "two", "k2", ⟨1704153600000⟩, ⟨1704153600000⟩⟩).1 true "a"
      = some ⟨"a", "two", "k2", ⟨1704067200000⟩, ⟨1704153600000⟩⟩ := by
  decide

/-! ## Custom URLs and the raw string -/

theorem create_custom_success (storage : Storage) (env : Env) (body : CreateBody)
    (content raw id : String) (cookie : Option String)
    (hcontent : body.content = some content) (hc : isBlank content = false)
    (hurl : body.customUrl = some raw) (hu : isBlank raw = false)
    (hsucc : (create storage env body).2 = .edit id cookie) :
    ∃ entry : Entry, entry.id = sanitize (trim raw) ∧ entry.content = trim content ∧
      id = sanitize (trim raw) ∧
      (storage.saveEntry env.saveOk entry).2 = true ∧
      (create storage env body).1 = (storage.saveEntry env.saveOk entry).1 := by
  simp only [create, hcontent, hurl, trimmedIfGiven_of_not_blank hc,
    trimmedIfGiven_of_not_blank hu] at hsucc ⊢
  cases hload : storage.loadEntry env.loadOk (sanitize (trim raw)) with
  | some e => simp [hload] at hsucc
  | none =>
    simp only [hload] at hsucc ⊢
    split at hsucc
    · next hs =>
      simp only [Response.edit.injEq] at hsucc
      exact ⟨_, rfl, rfl, hsucc.1.symm, hs, by simp [hs]⟩
    · simp at hsucc

/-- C7 (as amended). After a successful `POST /create` with a non-blank `customUrl`
`raw`, the entry has the id `sanitize(raw.trim())` and `loadEntry` of that id returns
it. On the relational backend, when `sanitize(raw)` differs from `raw`,
`loadEntry(raw)` returns what it returned before the create. On the filesystem
backend `loadEntry` sanitizes its argument, and `loadEntry(raw)` returns the created
entry whenever `sanitize(raw)` equals `sanitize(sanitize(raw.trim()))`. -/
theorem create_custom_url_lookup (storage : Storage) (env : Env) (body : CreateBody)
    (content raw id : String) (cookie : Option String)
    (hcontent : body.content = some content) (hc : isBlank content = false)
    (hurl : body.customUrl = some raw) (hu : isBlank raw = false)
    (hsucc : (create storage env body).2 = .edit id cookie) :
    id = sanitize (trim raw) ∧
    (∃ e, (create storage env body).1.loadEntry true (sanitize (trim raw)) = some e ∧
      e.id = sanitize (trim raw) ∧ e.content = trim content) ∧
    (∀ table, storage = .pg table → sanitize raw ≠ raw →
      ∀ ok, (create storage env body).1.loadEntry ok raw = storage.loadEntry ok raw) ∧
    (∀ files, storage = .fs files → sanitize raw = sanitize (sanitize (trim raw)) →
      ∃ e, (create storage env body).1.loadEntry true raw = some e ∧
        e.id = sanitize (trim raw) ∧ e.content = trim content) := by
  obtain ⟨entry, hid, hcont, hidr, hsave, hst⟩ :=
    create_custom_success storage env body content raw id cookie hcontent hc hurl hu hsucc
  have hlen : entry.id.length ≤ 255 := hid ▸ sanitize_length _
  have hget : ∃ e, (create storage env body).1.loadEntry true (sanitize (trim raw)) = some e ∧
      e.id = sanitize (trim raw) ∧ e.content = trim content := by
    obtain ⟨e, he, h1, h2⟩ := storage_load_save_content storage env.saveOk entry hsave hlen
    exact ⟨e, by rw [hst, ← hid]; exact he, by rw [h1, hid], by rw [h2, hcont]⟩
  refine ⟨hidr, hget, ?_, ?_⟩
  · intro table htable hne ok
    rw [hst]
    apply storage_load_save_other storage env.saveOk ok entry raw hlen
    subst htable
    simp only [Storage.key, hid]
    exact ne_sanitize_trim_of_sanitize_ne hne
  · intro files hfiles hsan
    obtain ⟨e, he, h1, h2⟩ := hget
    refine ⟨e, ?_, h1, h2⟩
    rw [← he]
    apply storage_load_of_key_eq
    have hk : ∀ a, (create storage env body).1.key a = getEntryPath a := by
      intro a
      rw [hst]
      subst hfiles
      rfl
    rw [hk, hk]
    exact (getEntryPath_eq_iff _ _).mpr hsan

/-- An instance on the empty table: the create with `customUrl` `a/b` files the entry
under `ab`, and a load of `a/b` returns what it returned before. -/
theorem create_custom_url_lookup_witness :
    (create (.pg Table.empty) sampleEnv ⟨some "hello", some "a/b", none⟩).2
      = .edit "ab" (some "12345678") ∧
    "ab" = sanitize (trim "a/b") ∧
    (∃ e, (create (.pg Table.empty) sampleEnv ⟨some "hello", some "a/b", none⟩).1.loadEntry true
        (sanitize (trim "a/b")) = some e ∧
      e.id = sanitize (trim "a/b") ∧ e.content = trim "hello") ∧
    (create (.pg Table.empty) sampleEnv ⟨some "hello", some "a/b", none⟩).1.loadEntry true "a/b"
      = (Storage.pg Table.empty).loadEntry true "a/b" :=
  ⟨by decide,
    (create_custom_url_lookup (.pg Table.empty) sampleEnv ⟨some "hello", some "a/b", none⟩
      "hello" "a/b" "ab" (some "12345678") rfl (by decide) rfl (by decide) (by decide)).1,
    (create_custom_url_lookup (.pg Table.empty) sampleEnv ⟨some "hello", some "a/b", none⟩
      "hello" "a/b" "ab" (some "12345678") rfl (by decide) rfl (by decide) (by decide)).2.1,
    (create_custom_url_lookup (.pg Table.empty) sampleEnv ⟨some "hello", some "a/b", none⟩
      "hello" "a/b" "ab" (some "12345678") rfl (by decide) rfl (by decide) (by decide)).2.2.1
      Table.empty rfl (by decide) true⟩

/-- C7 fails as stated. On the filesystem backend, after a successful create with
`customUrl` `"a/b"`, which `sanitize` changes to `"ab"`, `loadEntry("a/b")` returns
the entry. And after a successful create with `customUrl` `" a/b"` the entry has
the id `"ab"`, while `sanitize(" a/b")` is `" ab"` and `loadEntry(" ab")` is absent. -/
theorem create_custom_url_lookup_counterexample :
    sanitize "a/b" = "ab" ∧
    (create (.fs Files.empty) sampleEnv ⟨some "hello", some "a/b", none⟩).2
      = .edit "ab" (some "12345678") ∧
    (create (.fs Files.empty) sampleEnv ⟨some "hello", some "a/b", none⟩).1.loadEntry true "a/b"
      = some ⟨"ab", "hello", "12345678", ⟨1704067200000⟩, ⟨1704067200001⟩⟩ ∧
    sanitize " a/b" = " ab" ∧
    (create (.fs Files.empty) sampleEnv ⟨some "hello", some " a/b", none⟩).2
      = .edit "ab" (some "12345678") ∧
    (create (.fs Files.empty) sampleEnv ⟨some "hello", some " a/b", none⟩).1.loadEntry true
      (sanitize " a/b") = none ∧
    (create (.pg Table.empty) sampleEnv ⟨some "hello", some " a/b", none⟩).1.loadEntry true
      (sanitize " a/b") = none := by
  decide

/-! ## Update with a new URL, when every storage call completes -/

/-- What a successful update that changes the URL has done: the second load found
nothing, and the store is the one after the delete and the save of the moved entry. -/
theorem update_rename_success (storage : Storage) (env : Env) (id : String) (body : UpdateBody)
    (entry : Entry) (content newUrl finalId : String) (cookie : Option String)
    (hfound : storage.loadEntry env.loadOk id = some entry)
    (hcode : body.editCode = some entry.editCode)
    (hcontent : body.content = some content) (hc : isBlank content = false)
    (hurl : body.newUrl = some newUrl) (hu : isBlank newUrl = false) (hne : trim newUrl ≠ id)
    (hsucc : (update storage env id body).2 = .edit finalId cookie) :
    ∃ moved : Entry, moved.id = sanitize (trim newUrl) ∧ moved.content = trim content ∧
      moved.createdAt = entry.createdAt ∧
      finalId = sanitize (trim newUrl) ∧
      storage.loadEntry env.load2Ok (sanitize (trim newUrl)) = none ∧
      ((storage.deleteEntry env.deleteOk id).1.saveEntry env.saveOk moved).2 = true ∧
      (update storage env id body).1
        = ((storage.deleteEntry env.deleteOk id).1.saveEntry env.saveOk moved).1 := by
  have hne2 : (trim newUrl != id) = true := by simpa using hne
  cases htr : truthy (some entry.editCode) with
  | false => simp [update, hfound, hcode, htr] at hsucc
  | true =>
    simp only [update, hfound, hcode, htr, hcontent, hurl, trimmedIfGiven_of_not_blank hc,
      trimmedIfGiven_of_not_blank hu, bne_self_eq_false, Bool.not_true, Bool.or_false,
      Bool.false_eq_true, if_false, hne2, if_true] at hsucc ⊢
    cases hl2 : storage.loadEntry env.load2Ok (sanitize (trim newUrl)) with
    | some e =>
      rw [hl2] at hsucc
      simp at hsucc
    | none =>
      simp only [hl2] at hsucc ⊢
      split at hsucc
      · next hs =>
        simp only [Response.edit.injEq] at hsucc
        refine ⟨
          { id := sanitize (trim newUrl)
            content := trim content
            editCode :=
              match trimmedIfGiven body.newEditCode with
              | some code => code
              | none => entry.editCode
            createdAt := entry.createdAt
            updatedAt := env.now.toISOString },
          rfl, rfl, rfl, hsucc.1.symm, trivial, hs, ?_⟩
        rw [if_pos hs]
      · simp at hsucc

theorem view_of_routed (storage : Storage) (env : Env) (id : String)
    (hne : id ≠ "") (hpublic : env.publicHas id = false) (hcreate : id ≠ "create") :
    view storage env id =
      match storage.loadEntry env.loadOk id with
      | none => .notFound
      | some entry => .html entry.content := by
  simp only [view, if_neg hne, hpublic, if_neg hcreate]
  rfl

/-- When the second load and the delete complete, a successful update that changes the
URL moves the entry: nothing is loaded under the old id and the new id holds the new
content; a `GET /:id` that reaches the handler answers 404 for the old id and sends
the new content for the new one. -/
theorem update_rename_moves (storage : Storage) (env : Env) (id : String) (body : UpdateBody)
    (entry : Entry) (content newUrl finalId : String) (cookie : Option String)
    (hfound : storage.loadEntry env.loadOk id = some entry)
    (hcode : body.editCode = some entry.editCode)
    (hcontent : body.content = some content) (hc : isBlank content = false)
    (hurl : body.newUrl = some newUrl) (hu : isBlank newUrl = false) (hne : trim newUrl ≠ id)
    (hload2 : env.load2Ok = true) (hdelete : env.deleteOk = true)
    (hsucc : (update storage env id body).2 = .edit finalId cookie) :
    finalId = sanitize (trim newUrl) ∧
    (update storage env id body).1.loadEntry true id = none ∧
    (∃ e, (update storage env id body).1.loadEntry true finalId = some e ∧
      e.content = trim content) ∧
    ∀ later : Env, later.loadOk = true →
      (id ≠ "" → later.publicHas id = false → id ≠ "create" →
        view (update storage env id body).1 later id = .notFound) ∧
      (finalId ≠ "" → later.publicHas finalId = false → finalId ≠ "create" →
        view (update storage env id body).1 later finalId = .html (trim content)) := by
  obtain ⟨moved, hid, hcont, -, hfid, hl2, hs, hst⟩ :=
    update_rename_success storage env id body entry content newUrl finalId cookie
      hfound hcode hcontent hc hurl hu hne hsucc
  have hok := storage_load_ok hfound
  rw [hok] at hfound
  rw [hload2] at hl2
  rw [hdelete] at hs hst
  have hkey : storage.key id ≠ storage.key moved.id := by
    intro hk
    rw [storage_load_of_key_eq storage true hk, hid, hl2] at hfound
    exact Option.noConfusion hfound
  have hlen : moved.id.length ≤ 255 := hid ▸ sanitize_length _
  have hold : (update storage env id body).1.loadEntry true id = none := by
    rw [hst, storage_load_save_other _ _ _ _ _ hlen
      (by simpa [storage_key_deleteEntry] using hkey), storage_load_delete_same]
  have hnew : ∃ e, (update storage env id body).1.loadEntry true finalId = some e ∧
      e.content = trim content := by
    obtain ⟨e, he, -, h2⟩ := storage_load_save_content _ _ _ hs hlen
    exact ⟨e, by rw [hst, hfid, ← hid]; exact he, by rw [h2, hcont]⟩
  refine ⟨hfid, hold, hnew, ?_⟩
  intro later hlater
  constructor
  · intro h1 h2 h3
    rw [view_of_routed _ _ _ h1 h2 h3, hlater, hold]
  · intro h1 h2 h3
    obtain ⟨e, he, hcontent2⟩ := hnew
    rw [view_of_routed _ _ _ h1 h2 h3, hlater, he]
    simp [hcontent2]

/-! ## The two backends side by side -/

/-- C8 fails as stated. From empty stores, saving an entry with the id `a/b` and then
loading `ab` returns the entry on the filesystem backend and nothing on the relational
one; saving an entry `a` twice with different `createdAt` and loading it shows the
second `createdAt` on the filesystem backend and the first on the relational one; and
after a create with `customUrl` `ab`, `GET /a%2Fb` sends the content on the filesystem
backend and the 404 page on the relational one. -/
theorem backends_agree_counterexample :
    (Storage.fs Files.empty).run
        [(true, .saveEntry ⟨"a/b", "one", "k", ⟨1704067200000⟩, ⟨1704067200000⟩⟩),
         (true, .loadEntry "ab")]
      = [.done true, .entry (some ⟨"a/b", "one", "k", ⟨1704067200000⟩, ⟨1704067200000⟩⟩)] ∧
    (Storage.pg Table.empty).run
        [(true, .saveEntry ⟨"a/b", "one", "k", ⟨1704067200000⟩, ⟨1704067200000⟩⟩),
         (true, .loadEntry "ab")]
      = [.done true, .entry none] ∧
    (Storage.fs Files.empty).run
        [(true, .saveEntry ⟨"a", "one", "k", ⟨1704067200000⟩, ⟨1704067200000⟩⟩),
         (true, .saveEntry ⟨"a", "two", "k", ⟨1704153600000⟩, ⟨1704153600000⟩⟩),
         (true, .loadEntry "a")]
      = [.done true, .done true,
          .entry (some ⟨"a", "two", "k", ⟨1704153600000⟩, ⟨1704153600000⟩⟩)] ∧
    (Storage.pg Table.empty).run
        [(true, .saveEntry ⟨"a", "one", "k", ⟨1704067200000⟩, ⟨1704067200000⟩⟩),
         (true, .saveEntry ⟨"a", "two", "k", ⟨1704153600000⟩, ⟨1704153600000⟩⟩),
         (true, .loadEntry "a")]
      = [.done true, .done true,
          .entry (some ⟨"a", "two", "k", ⟨1704067200000⟩, ⟨1704153600000⟩⟩)] ∧
    serve (.fs Files.empty)
        [(sampleEnv, .create ⟨some "hello", some "ab", none⟩), (sampleEnv, .view "a/b")]
      = [.edit "ab" (some "12345678"), .html "hello"] ∧
    serve (.pg Table.empty)
        [(sampleEnv, .create ⟨some "hello", some "ab", none⟩), (sampleEnv, .view "a/b")]
      = [.edit "ab" (some "12345678"), .notFound] := by
  decide

theorem storage_load_not_ok (storage : Storage) (id : String) :
    storage.loadEntry false id = none := by
  cases storage <;>
    simp [Storage.loadEntry, FileSystemBackend.loadEntry, PostgreSQLBackend.loadEntry]

theorem pg_save_succeeds (table : Table) (entry : Entry)
    (hid : sanitize entry.id = entry.id) (hcontent : hasNul entry.content = false)
    (hcode : hasNul entry.editCode = false) (hlen : entry.editCode.length ≤ 255) :
    ((Storage.pg table).saveEntry true entry).2 = true := by
  have h1 : toVarchar255 entry.id = some entry.id :=
    toVarchar255_of_length_le (hid ▸ sanitize_hasNul _) (hid ▸ sanitize_length _)
  have h2 : toText entry.content = some entry.content := by simp [toText, hcontent]
  have h3 : toVarchar255 entry.editCode = some entry.editCode :=
    toVarchar255_of_length_le hcode hlen
  simp only [Storage.saveEntry, PostgreSQLBackend.saveEntry, h1, h2, h3]
  cases table entry.id <;> rfl

theorem fs_key_ne {files : Files} {a b : String} (ha : sanitize a = a) (hb : sanitize b = b)
    (h : a ≠ b) : (Storage.fs files).key a ≠ (Storage.fs files).key b := by
  intro hk
  have := (getEntryPath_eq_iff a b).mp hk
  rw [ha, hb] at this
  exact h this

/-- One admissible save keeps the two backends in step. -/
theorem save_keeps_in_step (files : Files) (table : Table) (entry : Entry)
    (hsim : ∀ id, sanitize id = id →
      (Storage.fs files).loadEntry true id = (Storage.pg table).loadEntry true id)
    (hid : sanitize entry.id = entry.id) (hcontent : hasNul entry.content = false)
    (hcode : hasNul entry.editCode = false) (hlen : entry.editCode.length ≤ 255)
    (hcreated : ∀ old, (Storage.fs files).loadEntry true entry.id = some old →
      old.createdAt = entry.createdAt) :
    ((Storage.fs files).saveEntry true entry).2 = ((Storage.pg table).saveEntry true entry).2 ∧
    ∀ id, sanitize id = id →
      ((Storage.fs files).saveEntry true entry).1.loadEntry true id
        = ((Storage.pg table).saveEntry true entry).1.loadEntry true id := by
  have hpg := pg_save_succeeds table entry hid hcontent hcode hlen
  have hfs : ((Storage.fs files).saveEntry true entry).2 = true := rfl
  have hidlen : entry.id.length ≤ 255 := hid ▸ sanitize_length _
  refine ⟨by rw [hfs, hpg], ?_⟩
  intro id hplain
  by_cases heq : id = entry.id
  · subst heq
    rw [storage_load_save _ _ _ hfs hidlen hlen, storage_load_save _ _ _ hpg hidlen hlen]
    have hkept : (Storage.pg table).keptCreatedAt entry = entry.createdAt := by
      have hnul : hasNul entry.id = false := hid ▸ sanitize_hasNul _
      cases hrow : table entry.id with
      | none => simp [Storage.keptCreatedAt, hrow]
      | some row =>
        have h := hsim entry.id hid
        simp only [Storage.loadEntry, PostgreSQLBackend.loadEntry, hnul, hrow] at h
        have := hcreated _ (by simpa [Storage.loadEntry] using h)
        simpa [Storage.keptCreatedAt, hrow] using this
    rw [hkept]
    rfl
  · rw [storage_load_save_other _ _ _ _ _ hidlen (fs_key_ne hplain hid heq),
      storage_load_save_other _ _ _ _ _ hidlen (by simpa [Storage.key] using heq)]
    exact hsim id hplain

/-- One delete of an id that `sanitize` leaves unchanged keeps the two backends in step. -/
theorem delete_keeps_in_step (files : Files) (table : Table) (target : String)
    (hsim : ∀ id, sanitize id = id →
      (Storage.fs files).loadEntry true id = (Storage.pg table).loadEntry true id)
    (htarget : sanitize target = target) :
    ((Storage.fs files).deleteEntry true target).2
      = ((Storage.pg table).deleteEntry true target).2 ∧
    ∀ id, sanitize id = id →
      ((Storage.fs files).deleteEntry true target).1.loadEntry true id
        = ((Storage.pg table).deleteEntry true target).1.loadEntry true id := by
  have hnul : hasNul target = false := htarget ▸ sanitize_hasNul _
  refine ⟨by simp [Storage.deleteEntry, FileSystemBackend.deleteEntry,
    PostgreSQLBackend.deleteEntry, hnul], ?_⟩
  intro id hplain
  by_cases heq : id = target
  · subst heq
    rw [storage_load_delete_same, storage_load_delete_same]
  · rw [storage_load_delete_other _ _ _ _ _ (fs_key_ne hplain htarget heq),
      storage_load_delete_other _ _ _ _ _ (by simpa [Storage.key] using heq)]
    exact hsim id hplain

theorem run_eq_of_in_step (calls : List (Bool × StorageCall)) :
    ∀ (files : Files) (table : Table),
      (∀ id, sanitize id = id →
        (Storage.fs files).loadEntry true id = (Storage.pg table).loadEntry true id) →
      admissible (.fs files) calls = true →
      (Storage.fs files).run calls = (Storage.pg table).run calls := by
  induction calls with
  | nil =>
    intro files table _ _
    rfl
  | cons head rest ih =>
    intro files table hsim hadm
    obtain ⟨ok, c⟩ := head
    cases c with
    | loadEntry id =>
      simp only [admissible, Bool.and_eq_true, beq_iff_eq] at hadm
      have hload : (Storage.fs files).loadEntry ok id = (Storage.pg table).loadEntry ok id := by
        cases ok
        · rw [storage_load_not_ok, storage_load_not_ok]
        · exact hsim id hadm.1
      simp only [Storage.run, Storage.call]
      rw [hload, ih files table hsim hadm.2]
    | saveEntry entry =>
      simp only [admissible, Bool.and_eq_true, beq_iff_eq, Bool.not_eq_true',
        decide_eq_true_eq] at hadm
      obtain ⟨⟨⟨⟨⟨hid, hcontent⟩, hcode⟩, hlen⟩, hcreated⟩, hrest⟩ := hadm
      cases ok with
      | false =>
        have h1 : (Storage.fs files).saveEntry false entry = (.fs files, false) := rfl
        have h2 : (Storage.pg table).saveEntry false entry = (.pg table, false) := by
          simp [Storage.saveEntry, PostgreSQLBackend.saveEntry]
        simp only [Storage.run, Storage.call, h1, h2]
        rw [h1] at hrest
        rw [ih files table hsim hrest]
      | true =>
        have hcreated2 : ∀ old, (Storage.fs files).loadEntry true entry.id = some old →
            old.createdAt = entry.createdAt := by
          intro old hold
          rw [hold] at hcreated
          simpa using hcreated
        obtain ⟨hres, hsim2⟩ :=
          save_keeps_in_step files table entry hsim hid hcontent hcode hlen hcreated2
        simp only [Storage.run, Storage.call]
        rw [hres]
        congr 1
        exact ih (FileSystemBackend.saveEntry files true entry).1
          (PostgreSQLBackend.saveEntry table true entry).1 hsim2 hrest
    | deleteEntry target =>
      simp only [admissible, Bool.and_eq_true, beq_iff_eq] at hadm
      obtain ⟨htarget, hrest⟩ := hadm
      cases ok with
      | false =>
        have h1 : (Storage.fs files).deleteEntry false target = (.fs files, false) := rfl
        have h2 : (Storage.pg table).deleteEntry false target = (.pg table, false) := rfl
        simp only [Storage.run, Storage.call, h1, h2]
        rw [h1] at hrest
        rw [ih files table hsim hrest]
      | true =>
        obtain ⟨hres, hsim2⟩ := delete_keeps_in_step files table target hsim htarget
        simp only [Storage.run, Storage.call]
        rw [hres]
        congr 1
        exact ih (FileSystemBackend.deleteEntry files true target).1
          (PostgreSQLBackend.deleteEntry table true target).1 hsim2 hrest

/-! ## The two backends under the request handlers -/

theorem inStep_load {s1 s2 : Storage} (h : InStep s1 s2) (ok : Bool) {id : String}
    (hid : sanitize id = id) : s1.loadEntry ok id = s2.loadEntry ok id := by
  cases ok with
  | false => rw [storage_load_not_ok, storage_load_not_ok]
  | true =>
    cases s1 with
    | pg t1 => cases s2 <;> exact h.elim
    | fs files =>
      cases s2 with
      | fs f2 => exact h.elim
      | pg table => exact h.1 id hid

theorem inStep_code {s1 s2 : Storage} (h : InStep s1 s2) {ok : Bool} {id : String}
    {entry : Entry} (hload : s2.loadEntry ok id = some entry) :
    hasNul entry.editCode = false ∧ entry.editCode.length ≤ 255 := by
  cases s1 with
  | pg t1 => cases s2 <;> exact h.elim
  | fs files =>
    cases s2 with
    | fs f2 => exact h.elim
    | pg table =>
      simp only [Storage.loadEntry, PostgreSQLBackend.loadEntry] at hload
      split at hload
      · cases hrow : table id with
        | none => simp [hrow] at hload
        | some row =>
          simp only [hrow, Option.some.injEq] at hload
          subst hload
          exact h.2 id row hrow
      · exact Option.noConfusion hload

theorem inStep_save {s1 s2 : Storage} (h : InStep s1 s2) (ok : Bool) (entry : Entry)
    (hid : sanitize entry.id = entry.id) (hcontent : hasNul entry.content = false)
    (hcode : hasNul entry.editCode = false) (hlen : entry.editCode.length ≤ 255)
    (hcreated : ∀ old, s1.loadEntry true entry.id = some old →
      old.createdAt = entry.createdAt) :
    (s1.saveEntry ok entry).2 = (s2.saveEntry ok entry).2 ∧
    InStep (s1.saveEntry ok entry).1 (s2.saveEntry ok entry).1 := by
  cases s1 with
  | pg t1 => cases s2 <;> exact h.elim
  | fs files =>
    cases s2 with
    | fs f2 => exact h.elim
    | pg table =>
      cases ok with
      | false =>
        have h2 : (Storage.pg table).saveEntry false entry = (.pg table, false) := by
          simp [Storage.saveEntry, PostgreSQLBackend.saveEntry]
        rw [h2]
        exact ⟨rfl, h⟩
      | true =>
        obtain ⟨hres, hsim⟩ :=
          save_keeps_in_step files table entry h.1 hid hcontent hcode hlen hcreated
        refine ⟨hres, ?_⟩
        have hpg := pg_save_succeeds table entry hid hcontent hcode hlen
        obtain ⟨-, key, content, edit_code, -, -, h3, hst⟩ :=
          pg_saveEntry_ok table true entry (by simpa [Storage.saveEntry] using hpg)
        have e3 : edit_code = entry.editCode := by
          rw [toVarchar255_of_length_le hcode hlen] at h3
          exact (Option.some.inj h3).symm
        subst e3
        refine ⟨hsim, ?_⟩
        intro id row hrow
        rw [hst] at hrow
        by_cases hk : id = key
        · subst hk
          rw [Function.update_same] at hrow
          cases Option.some.inj hrow
          exact ⟨hcode, hlen⟩
        · rw [Function.update_noteq hk] at hrow
          exact h.2 id row hrow

theorem inStep_delete {s1 s2 : Storage} (h : InStep s1 s2) (ok : Bool) {target : String}
    (htarget : sanitize target = target) :
    (s1.deleteEntry ok target).2 = (s2.deleteEntry ok target).2 ∧
    InStep (s1.deleteEntry ok target).1 (s2.deleteEntry ok target).1 := by
  cases s1 with
  | pg t1 => cases s2 <;> exact h.elim
  | fs files =>
    cases s2 with
    | fs f2 => exact h.elim
    | pg table =>
      cases ok with
      | false => exact ⟨rfl, h⟩
      | true =>
        obtain ⟨hres, hsim⟩ := delete_keeps_in_step files table target h.1 htarget
        refine ⟨hres, hsim, ?_⟩
        intro id row hrow
        have hnul : hasNul target = false := htarget ▸ sanitize_hasNul _
        have hst : (PostgreSQLBackend.deleteEntry table true target).1
            = Function.update table target none := by
          simp [PostgreSQLBackend.deleteEntry, hnul]
        rw [hst] at hrow
        by_cases hk : id = target
        · subst hk
          rw [Function.update_same] at hrow
          exact Option.noConfusion hrow
        · rw [Function.update_noteq hk] at hrow
          exact h.2 id row hrow

theorem storage_load_delete_none (storage : Storage) (ok : Bool) (id a : String)
    (h : storage.loadEntry true a = none) :
    (storage.deleteEntry ok id).1.loadEntry true a = none := by
  by_cases hk : storage.key a = storage.key id
  · cases ok with
    | false =>
      have : (storage.deleteEntry false id).1 = storage := by cases storage <;> rfl
      rw [this]
      exact h
    | true =>
      rw [storage_load_of_key_eq _ true
        (show (storage.deleteEntry true id).1.key a = (storage.deleteEntry true id).1.key id by
          simpa [storage_key_deleteEntry] using hk)]
      exact storage_load_delete_same storage true id
  · rw [storage_load_delete_other _ _ _ _ _ hk]
    exact h

theorem generateEditCode_hasNul (r : Draw) : hasNul (generateEditCode r) = false :=
  hasNul_of_digits _ r.digits 8 (generateEditCode_data r)

/-- The save at the end of a handler, and the response that depends on its result. -/
theorem inStep_persist {s1 s2 : Storage} (h : InStep s1 s2) (ok : Bool) (entry : Entry)
    (saved failed : Response)
    (hid : sanitize entry.id = entry.id) (hcontent : hasNul entry.content = false)
    (hcode : hasNul entry.editCode = false) (hlen : entry.editCode.length ≤ 255)
    (hcreated : ∀ old, s1.loadEntry true entry.id = some old →
      old.createdAt = entry.createdAt) :
    (if (s1.saveEntry ok entry).2 = true then ((s1.saveEntry ok entry).1, saved)
      else ((s1.saveEntry ok entry).1, failed)).2
      = (if (s2.saveEntry ok entry).2 = true then ((s2.saveEntry ok entry).1, saved)
          else ((s2.saveEntry ok entry).1, failed)).2 ∧
    InStep
      (if (s1.saveEntry ok entry).2 = true then ((s1.saveEntry ok entry).1, saved)
        else ((s1.saveEntry ok entry).1, failed)).1
      (if (s2.saveEntry ok entry).2 = true then ((s2.saveEntry ok entry).1, saved)
        else ((s2.saveEntry ok entry).1, failed)).1 := by
  obtain ⟨hres, hstep⟩ := inStep_save h ok entry hid hcontent hcode hlen hcreated
  rw [hres]
  split
  · exact ⟨rfl, hstep⟩
  · exact ⟨rfl, hstep⟩

theorem plainText_some {x : Option String} {s : String} (hp : plainText x = true)
    (hs : trimmedIfGiven x = some s) : hasNul s = false ∧ s.length ≤ 255 := by
  simpa [plainText, hs] using hp

theorem create_in_step {s1 s2 : Storage} (h : InStep s1 s2) (env : Env) (body : CreateBody)
    (hp : Request.plain env (.create body) = true) :
    (create s1 env body).2 = (create s2 env body).2 ∧
    InStep (create s1 env body).1 (create s2 env body).1 := by
  simp only [Request.plain, Bool.and_eq_true] at hp
  obtain ⟨⟨hl1, -⟩, ⟨hpid, hpcontent⟩, hpcode⟩ := hp
  cases hc : trimmedIfGiven body.content with
  | none =>
    constructor
    · simp only [create, hc]
    · simp only [create, hc]
      exact h
  | some content =>
    have hcontent : hasNul content = false := by simpa [hc] using hpcontent
    obtain ⟨id, hidv⟩ : ∃ id, id =
        (match trimmedIfGiven body.customUrl with
          | some customUrl => sanitize customUrl
          | none => generateId env.idDraw) := ⟨_, rfl⟩
    have hid : sanitize id = id := by
      rw [hidv]
      cases hu : trimmedIfGiven body.customUrl with
      | none => simpa [hu] using hpid
      | some u => simpa [hu] using hpid
    obtain ⟨code, hcodev⟩ : ∃ code, code =
        (match trimmedIfGiven body.editCode with
          | some editCode => editCode
          | none => generateEditCode env.codeDraw) := ⟨_, rfl⟩
    have hcode : hasNul code = false ∧ code.length ≤ 255 := by
      rw [hcodev]
      cases he : trimmedIfGiven body.editCode with
      | none => exact ⟨generateEditCode_hasNul _, generateEditCode_length _⟩
      | some c => exact plainText_some hpcode he
    simp only [create, hc, ← hidv, ← hcodev, hl1]
    have hload := inStep_load h true hid
    rw [hload]
    cases hfound : s2.loadEntry true id with
    | some e => exact ⟨rfl, h⟩
    | none =>
      rw [hfound] at hload
      exact inStep_persist h env.saveOk _ _ _ hid hcontent hcode.1 hcode.2
        (fun old hold => by rw [hload] at hold; exact Option.noConfusion hold)

theorem update_in_step {s1 s2 : Storage} (h : InStep s1 s2) (env : Env) (id : String)
    (body : UpdateBody) (hp : Request.plain env (.update id body) = true) :
    (update s1 env id body).2 = (update s2 env id body).2 ∧
    InStep (update s1 env id body).1 (update s2 env id body).1 := by
  simp only [Request.plain, Bool.and_eq_true, beq_iff_eq] at hp
  obtain ⟨⟨hl1, hl2⟩, ⟨⟨hid, hpurl⟩, hpcontent⟩, hpcode⟩ := hp
  have hload := inStep_load h true hid
  cases hfound : s2.loadEntry true id with
  | none =>
    constructor
    · simp only [update, hl1, hload, hfound]
    · simp only [update, hl1, hload, hfound]
      exact h
  | some entry =>
    have hfound1 : s1.loadEntry true id = some entry := by rw [hload, hfound]
    by_cases hguard : (!truthy body.editCode || body.editCode != some entry.editCode) = true
    · constructor
      · simp only [update, hl1, hfound1, hfound, hguard, if_true]
      · simp only [update, hl1, hfound1, hfound, hguard, if_true]
        exact h
    · cases hc : trimmedIfGiven body.content with
      | none =>
        constructor
        · simp only [update, hl1, hfound1, hfound, hguard, Bool.false_eq_true, if_false, hc]
        · simp only [update, hl1, hfound1, hfound, hguard, Bool.false_eq_true, if_false, hc]
          exact h
      | some content =>
        have hcontent : hasNul content = false := by simpa [hc] using hpcontent
        obtain ⟨code, hcodev⟩ : ∃ code, code =
            (match trimmedIfGiven body.newEditCode with
              | some code => code
              | none => entry.editCode) := ⟨_, rfl⟩
        have hcode : hasNul code = false ∧ code.length ≤ 255 := by
          rw [hcodev]
          cases he : trimmedIfGiven body.newEditCode with
          | none => exact inStep_code h hfound
          | some c => exact plainText_some hpcode he
        have hstay :
            (if (s1.saveEntry env.saveOk
                  { id := id, content := content, editCode := code,
                    createdAt := entry.createdAt, updatedAt := env.now.toISOString }).2 = true
              then ((s1.saveEntry env.saveOk
                  { id := id, content := content, editCode := code,
                    createdAt := entry.createdAt, updatedAt := env.now.toISOString }).1,
                  Response.edit id none)
              else ((s1.saveEntry env.saveOk
                  { id := id, content := content, editCode := code,
                    createdAt := entry.createdAt, updatedAt := env.now.toISOString }).1,
                  Response.error "Failed to update entry")).2
              = (if (s2.saveEntry env.saveOk
                  { id := id, content := content, editCode := code,
                    createdAt := entry.createdAt, updatedAt := env.now.toISOString }).2 = true
              then ((s2.saveEntry env.saveOk
                  { id := id, content := content, editCode := code,
                    createdAt := entry.createdAt, updatedAt := env.now.toISOString }).1,
                  Response.edit id none)
              else ((s2.saveEntry env.saveOk
                  { id := id, content := content, editCode := code,
                    createdAt := entry.createdAt, updatedAt := env.now.toISOString }).1,
                  Response.error "Failed to update entry")).2 ∧
            InStep
              (if (s1.saveEntry env.saveOk
                  { id := id, content := content, editCode := code,
                    createdAt := entry.createdAt, updatedAt := env.now.toISOString }).2 = true
              then ((s1.saveEntry env.saveOk
                  { id := id, content := content, editCode := code,
                    createdAt := entry.createdAt, updatedAt := env.now.toISOString }).1,
                  Response.edit id none)
              else ((s1.saveEntry env.saveOk
                  { id := id, content := content, editCode := code,
                    createdAt := entry.createdAt, updatedAt := env.now.toISOString }).1,
                  Response.error "Failed to update entry")).1
              (if (s2.saveEntry env.saveOk
                  { id := id, content := content, editCode := code,
                    createdAt := entry.createdAt, updatedAt := env.now.toISOString }).2 = true
              then ((s2.saveEntry env.saveOk
                  { id := id, content := content, editCode := code,
                    createdAt := entry.createdAt, updatedAt := env.now.toISOString }).1,
                  Response.edit id none)
              else ((s2.saveEntry env.saveOk
                  { id := id, content := content, editCode := code,
                    createdAt := entry.createdAt, updatedAt := env.now.toISOString }).1,
                  Response.error "Failed to update entry")).1 :=
          inStep_persist h env.saveOk _ _ _ hid hcontent hcode.1 hcode.2
            (fun old hold => by
              rw [hfound1] at hold
              cases Option.some.inj hold
              rfl)
        cases hu : trimmedIfGiven body.newUrl with
        | none =>
          simp only [update, hl1, hfound1, hfound, hguard, Bool.false_eq_true, if_false, hc, hu, ← hcodev]
          exact hstay
        | some newUrl =>
          by_cases hne : (newUrl != id) = true
          · have hnew : sanitize (sanitize newUrl) = sanitize newUrl := by
              simpa [hu] using hpurl
            have hload2 := inStep_load h true hnew
            simp only [update, hl1, hl2, hfound1, hfound, hguard, Bool.false_eq_true, if_false, hc, hu, ← hcodev,
              hne, if_true]
            rw [hload2]
            cases hfound2 : s2.loadEntry true (sanitize newUrl) with
            | some e => exact ⟨rfl, h⟩
            | none =>
              rw [hfound2] at hload2
              obtain ⟨-, hstep⟩ := inStep_delete h env.deleteOk hid
              exact inStep_persist hstep env.saveOk _ _ _ hnew hcontent hcode.1 hcode.2
                (fun old hold => by
                  rw [storage_load_delete_none s1 env.deleteOk id _ hload2] at hold
                  exact Option.noConfusion hold)
          · simp only [update, hl1, hfound1, hfound, hguard, Bool.false_eq_true, if_false, hc, hu, ← hcodev, hne]
            exact hstay

theorem handle_in_step {s1 s2 : Storage} (h : InStep s1 s2) (env : Env) (request : Request)
    (hp : Request.plain env request = true) :
    (handle s1 env request).2 = (handle s2 env request).2 ∧
    InStep (handle s1 env request).1 (handle s2 env request).1 := by
  cases request with
  | create body => exact create_in_step h env body hp
  | update id body => exact update_in_step h env id body hp
  | view id =>
    simp only [Request.plain, Bool.and_eq_true, beq_iff_eq] at hp
    simp only [handle, view, inStep_load h env.loadOk hp.2]
    exact ⟨trivial, h⟩
  | editForm id =>
    simp only [Request.plain, Bool.and_eq_true, beq_iff_eq] at hp
    simp only [handle, editForm, inStep_load h env.loadOk hp.2]
    exact ⟨trivial, h⟩
  | apiEntry id =>
    simp only [Request.plain, Bool.and_eq_true, beq_iff_eq] at hp
    simp only [handle, apiEntry, inStep_load h env.loadOk hp.2]
    exact ⟨trivial, h⟩

theorem serve_eq_of_in_step (requests : List (Env × Request)) :
    ∀ (s1 s2 : Storage), InStep s1 s2 →
      requests.all (fun p => Request.plain p.1 p.2) = true →
      serve s1 requests = serve s2 requests := by
  induction requests with
  | nil =>
    intro s1 s2 _ _
    rfl
  | cons head rest ih =>
    intro s1 s2 h hp
    obtain ⟨env, request⟩ := head
    simp only [List.all_cons, Bool.and_eq_true] at hp
    obtain ⟨hres, hstep⟩ := handle_in_step h env request hp.1
    simp only [serve]
    rw [hres, ih _ _ hstep hp.2]

theorem inStep_empty : InStep (.fs Files.empty) (.pg Table.empty) := by
  refine ⟨?_, ?_⟩
  · intro id hid
    have hnul : hasNul id = false := hid ▸ sanitize_hasNul _
    simp [Storage.loadEntry, FileSystemBackend.loadEntry, PostgreSQLBackend.loadEntry,
      Files.empty, Table.empty]
  · intro id row hrow
    simp [Table.empty] at hrow

/-- C8 (as amended). From empty stores the filesystem backend and the relational
backend return the same values at every step of a finite sequence of `loadEntry`,
`saveEntry` and `deleteEntry` calls, each completing or failing alike on both sides,
in which every id is left unchanged by `sanitize`, every saved content and edit code
is free of the code point 0, every saved edit code has at most 255 characters, and
every save over a stored entry carries the stored `createdAt`. They send the same
responses to a finite sequence of create, view, edit, update and API requests, with
the same draws, clock values and outcomes of the save and delete calls, in which
every load completes, every id in a URL and every id a handler derives is left
unchanged by `sanitize`, and the trimmed contents and edit codes are free of the
code point 0, the edit codes of at most 255 characters. -/
theorem backends_agree :
    (∀ calls : List (Bool × StorageCall), admissible (.fs Files.empty) calls = true →
      (Storage.fs Files.empty).run calls = (Storage.pg Table.empty).run calls) ∧
    (∀ requests : List (Env × Request),
      requests.all (fun p => Request.plain p.1 p.2) = true →
      serve (.fs Files.empty) requests = serve (.pg Table.empty) requests) := by
  refine ⟨?_, ?_⟩
  · intro calls h
    exact run_eq_of_in_step calls Files.empty Table.empty inStep_empty.1 h
  · intro requests h
    exact serve_eq_of_in_step requests _ _ inStep_empty h

/-- An instance: a sequence of storage calls, one of them failing, and a sequence of
requests with a rename, answered alike by both backends. -/
theorem backends_agree_witness :
    (Storage.fs Files.empty).run
        [(true, .saveEntry ⟨"ab", "one", "k", ⟨1704067200000⟩, ⟨1704067200000⟩⟩),
         (true, .loadEntry "ab"),
         (true, .saveEntry ⟨"ab", "two", "k2", ⟨1704067200000⟩, ⟨1704153600000⟩⟩),
         (false, .deleteEntry "ab"),
         (true, .loadEntry "ab"),
         (true, .deleteEntry "ab"),
         (true, .loadEntry "ab")]
      = (Storage.pg Table.empty).run
        [(true, .saveEntry ⟨"ab", "one", "k", ⟨1704067200000⟩, ⟨1704067200000⟩⟩),
         (true, .loadEntry "ab"),
         (true, .saveEntry ⟨"ab", "two", "k2", ⟨1704067200000⟩, ⟨1704153600000⟩⟩),
         (false, .deleteEntry "ab"),
         (true, .loadEntry "ab"),
         (true, .deleteEntry "ab"),
         (true, .loadEntry "ab")] ∧
    serve (.fs Files.empty)
        [(sampleEnv, .create ⟨some "hello", none, some "k"⟩),
         (sampleEnv, .view "abcde"),
         (sampleEnv, .update "abcde" ⟨some "world", some "k", none, some "greet"⟩),
         (sampleEnv, .apiEntry "greet"),
         (sampleEnv, .view "abcde")]
      = serve (.pg Table.empty)
        [(sampleEnv, .create ⟨some "hello", none, some "k"⟩),
         (sampleEnv, .view "abcde"),
         (sampleEnv, .update "abcde" ⟨some "world", some "k", none, some "greet"⟩),
         (sampleEnv, .apiEntry "greet"),
         (sampleEnv, .view "abcde")] :=
  ⟨backends_agree.1 _ (by decide), backends_agree.2 _ (by decide)⟩

/-! ## The storage-abstracted server and the original server -/

theorem fs_loadEntry_eq_server (files : Files) (ok : Bool) (id : String) :
    (Storage.fs files).loadEntry ok id = Server.loadEntry files ok id := rfl

theorem fs_saveEntry_eq_server (files : Files) (ok : Bool) (entry : Entry) :
    (Storage.fs files).saveEntry ok entry
      = (.fs (Server.saveEntry files ok entry).1, (Server.saveEntry files ok entry).2) := rfl

theorem create_eq_server (files : Files) (env : Env) (body : CreateBody) :
    create (.fs files) env body
      = (.fs (Server.create files env body).1, (Server.create files env body).2) := by
  simp only [create, Server.create, fs_loadEntry_eq_server, fs_saveEntry_eq_server]
  split
  · rfl
  · split
    · rfl
    · split <;> rfl

theorem update_eq_server (files : Files) (env : Env) (id : String) (body : UpdateBody)
    (hdelete : env.deleteOk = true) :
    update (.fs files) env id body
      = (.fs (Server.update files env id body).1, (Server.update files env id body).2) := by
  have hdel : (Storage.fs files).deleteEntry true id
      = (.fs (Function.update files (Server.getEntryPath id) none), true) := rfl
  simp only [update, Server.update, fs_loadEntry_eq_server, fs_saveEntry_eq_server, hdelete,
    hdel, if_true]
  split
  · rfl
  · split
    · rfl
    · split
      · rfl
      · split
        · split <;> rfl
        · split
          · split
            · rfl
            · split <;> rfl
          · split <;> rfl

/-- C14. For every data directory and every create, view, edit, update or API
request, with the same draws and clock values, the server of `index.js` on the
filesystem backend and the server of `server.js` send the same response and leave
the same data directory, provided no filesystem operation fails. -/
theorem server_equal (files : Files) (env : Env) (request : Request)
    (hok : env.loadOk = true ∧ env.load2Ok = true ∧ env.deleteOk = true ∧ env.saveOk = true) :
    (handle (.fs files) env request).2 = (Server.handle files env request).2 ∧
    (handle (.fs files) env request).1 = .fs (Server.handle files env request).1 := by
  cases request with
  | create body =>
    simp only [handle, Server.handle, create_eq_server]
    exact ⟨trivial, trivial⟩
  | update id body =>
    simp only [handle, Server.handle, update_eq_server files env id body hok.2.2.1]
    exact ⟨trivial, trivial⟩
  | view id => exact ⟨rfl, rfl⟩
  | editForm id => exact ⟨rfl, rfl⟩
  | apiEntry id => exact ⟨rfl, rfl⟩

/-- An instance: the rename of the sample entry is answered alike by both servers and
leaves the same data directory. -/
theorem server_equal_witness :
    (handle
        (.fs (Function.update Files.empty "abcde.json"
          (some ⟨"abcde", "hello", "k", ⟨1704067200000⟩, ⟨1704067200001⟩⟩)))
        sampleEnv (.update "abcde" ⟨some "world", some "k", none, some "greet"⟩)).2
      = (Server.handle
        (Function.update Files.empty "abcde.json"
          (some ⟨"abcde", "hello", "k", ⟨1704067200000⟩, ⟨1704067200001⟩⟩))
        sampleEnv (.update "abcde" ⟨some "world", some "k", none, some "greet"⟩)).2 ∧
    (handle
        (.fs (Function.update Files.empty "abcde.json"
          (some ⟨"abcde", "hello", "k", ⟨1704067200000⟩, ⟨1704067200001⟩⟩)))
        sampleEnv (.update "abcde" ⟨some "world", some "k", none, some "greet"⟩)).1
      = .fs (Server.handle
        (Function.update Files.empty "abcde.json"
          (some ⟨"abcde", "hello", "k", ⟨1704067200000⟩, ⟨1704067200001⟩⟩))
        sampleEnv (.update "abcde" ⟨some "world", some "k", none, some "greet"⟩)).1 :=
  server_equal _ sampleEnv (.update "abcde" ⟨some "world", some "k", none, some "greet"⟩)
    ⟨rfl, rfl, rfl, rfl⟩

/-- Where the two servers part: when the removal of the old file does not complete,
`server.js` answers "Internal server error" and saves nothing, `index.js` saves under
the new id and answers with the redirect. -/
theorem server_differs_on_failed_remove :
    (Server.handle
        (Function.update Files.empty "abcde.json"
          (some ⟨"abcde", "hello", "k", ⟨1704067200000⟩, ⟨1704067200001⟩⟩))
        { sampleEnv with deleteOk := false }
        (.update "abcde" ⟨some "world", some "k", none, some "greet"⟩)).2
      = .error "Internal server error" ∧
    (handle
        (.fs (Function.update Files.empty "abcde.json"
          (some ⟨"abcde", "hello", "k", ⟨1704067200000⟩, ⟨1704067200001⟩⟩)))
        { sampleEnv with deleteOk := false }
        (.update "abcde" ⟨some "world", some "k", none, some "greet"⟩)).2
      = .edit "greet" none := by
  decide

/-! ## Update and `createdAt` -/

/-- What a successful update has done: it saved the loaded entry, with the final id
and the `createdAt` it had, either on the store as it was, the id unchanged, or on
the store after the delete of the old id, nothing being found under the new id. -/
theorem update_success (storage : Storage) (env : Env) (id : String) (body : UpdateBody)
    (entry : Entry) (finalId : String) (cookie : Option String)
    (hfound : storage.loadEntry env.loadOk id = some entry)
    (hsucc : (update storage env id body).2 = .edit finalId cookie) :
    ∃ (moved : Entry) (before : Storage),
      moved.id = finalId ∧ moved.createdAt = entry.createdAt ∧
      (moved.editCode = entry.editCode ∨
        ∃ code, trimmedIfGiven body.newEditCode = some code ∧ moved.editCode = code) ∧
      (before = storage ∧ finalId = id ∨
        before = (storage.deleteEntry env.deleteOk id).1 ∧ finalId.length ≤ 255 ∧
          storage.loadEntry env.load2Ok finalId = none) ∧
      (before.saveEntry env.saveOk moved).2 = true ∧
      (update storage env id body).1 = (before.saveEntry env.saveOk moved).1 := by
  by_cases hguard : (!truthy body.editCode || body.editCode != some entry.editCode) = true
  · simp [update, hfound, hguard] at hsucc
  cases hc : trimmedIfGiven body.content with
  | none => simp [update, hfound, hguard, hc] at hsucc
  | some content =>
    obtain ⟨code, hcodev⟩ : ∃ code, code =
        (match trimmedIfGiven body.newEditCode with
          | some code => code
          | none => entry.editCode) := ⟨_, rfl⟩
    have hcode : code = entry.editCode ∨
        ∃ c, trimmedIfGiven body.newEditCode = some c ∧ code = c := by
      rw [hcodev]
      cases he : trimmedIfGiven body.newEditCode with
      | none => exact Or.inl rfl
      | some c => exact Or.inr ⟨c, rfl, rfl⟩
    have hstay : ∀ fid ck,
        (if (storage.saveEntry env.saveOk
              { id := id, content := content, editCode := code,
                createdAt := entry.createdAt, updatedAt := env.now.toISOString }).2 = true
          then ((storage.saveEntry env.saveOk
              { id := id, content := content, editCode := code,
                createdAt := entry.createdAt, updatedAt := env.now.toISOString }).1,
              Response.edit id none)
          else ((storage.saveEntry env.saveOk
              { id := id, content := content, editCode := code,
                createdAt := entry.createdAt, updatedAt := env.now.toISOString }).1,
              Response.error "Failed to update entry")).2 = Response.edit fid ck →
        ∃ (moved : Entry) (before : Storage),
          moved.id = fid ∧ moved.createdAt = entry.createdAt ∧
          (moved.editCode = entry.editCode ∨
            ∃ c, trimmedIfGiven body.newEditCode = some c ∧ moved.editCode = c) ∧
          (before = storage ∧ fid = id ∨
            before = (storage.deleteEntry env.deleteOk id).1 ∧ fid.length ≤ 255 ∧
              storage.loadEntry env.load2Ok fid = none) ∧
          (before.saveEntry env.saveOk moved).2 = true ∧
          (if (storage.saveEntry env.saveOk
              { id := id, content := content, editCode := code,
                createdAt := entry.createdAt, updatedAt := env.now.toISOString }).2 = true
          then ((storage.saveEntry env.saveOk
              { id := id, content := content, editCode := code,
                createdAt := entry.createdAt, updatedAt := env.now.toISOString }).1,
              Response.edit id none)
          else ((storage.saveEntry env.saveOk
              { id := id, content := content, editCode := code,
                createdAt := entry.createdAt, updatedAt := env.now.toISOString }).1,
              Response.error "Failed to update entry")).1
            = (before.saveEntry env.saveOk moved).1 := by
      intro fid ck h
      split at h
      · next hs =>
        simp only [Response.edit.injEq] at h
        obtain ⟨hfid, -⟩ := h
        subst hfid
        refine ⟨{ id := id, content := content, editCode := code,
                  createdAt := entry.createdAt, updatedAt := env.now.toISOString },
          storage, rfl, rfl, hcode, Or.inl ⟨rfl, rfl⟩, hs, ?_⟩
        rw [if_pos hs]
      · simp at h
    cases hu : trimmedIfGiven body.newUrl with
    | none =>
      simp only [update, hfound, hguard, Bool.false_eq_true, if_false, hc, hu, ← hcodev]
        at hsucc ⊢
      exact hstay finalId cookie hsucc
    | some newUrl =>
      by_cases hne : (newUrl != id) = true
      · simp only [update, hfound, hguard, Bool.false_eq_true, if_false, hc, hu, ← hcodev,
          hne, if_true] at hsucc ⊢
        cases hl2 : storage.loadEntry env.load2Ok (sanitize newUrl) with
        | some e => simp [hl2] at hsucc
        | none =>
          simp only [hl2] at hsucc ⊢
          split at hsucc
          · next hs =>
            simp only [Response.edit.injEq] at hsucc
            obtain ⟨hfid, -⟩ := hsucc
            subst hfid
            refine ⟨{ id := sanitize newUrl, content := content, editCode := code,
                      createdAt := entry.createdAt, updatedAt := env.now.toISOString },
              (storage.deleteEntry env.deleteOk id).1, rfl, rfl, hcode,
              Or.inr ⟨rfl, sanitize_length _, hl2⟩, hs, ?_⟩
            rw [if_pos hs]
          · simp at hsucc
      · simp only [update, hfound, hguard, Bool.false_eq_true, if_false, hc, hu, ← hcodev,
          hne] at hsucc ⊢
        exact hstay finalId cookie hsucc

theorem storage_load_delete_some (storage : Storage) (ok : Bool) (id a : String) (old : Entry)
    (h : (storage.deleteEntry ok id).1.loadEntry true a = some old) :
    storage.loadEntry true a = some old := by
  by_cases hk : storage.key a = storage.key id
  · cases ok with
    | false =>
      have : (storage.deleteEntry false id).1 = storage := by cases storage <;> rfl
      rw [this] at h
      exact h
    | true =>
      rw [storage_load_of_key_eq _ true
        (show (storage.deleteEntry true id).1.key a = (storage.deleteEntry true id).1.key id by
          simpa [storage_key_deleteEntry] using hk),
        storage_load_delete_same storage true id] at h
      exact Option.noConfusion h
  · rw [storage_load_delete_other _ _ _ _ _ hk] at h
    exact h

/-- After a save that reports success, the entry loaded under the saved id has the
saved `createdAt`, when the backend is the filesystem one or whatever was stored
under that id had this `createdAt` already. -/
theorem save_keeps_createdAt (storage : Storage) (ok : Bool) (entry : Entry)
    (hs : (storage.saveEntry ok entry).2 = true)
    (hkind : (∃ files, storage = .fs files) ∨
      ∀ old, storage.loadEntry true entry.id = some old → old.createdAt = entry.createdAt)
    (hkey : entry.id.length ≤ 255 ∨ ∃ old, storage.loadEntry true entry.id = some old) :
    ∃ e, (storage.saveEntry ok entry).1.loadEntry true entry.id = some e ∧
      e.createdAt = entry.createdAt := by
  cases storage with
  | fs files =>
    cases ok with
    | false => simp [Storage.saveEntry, FileSystemBackend.saveEntry] at hs
    | true =>
      exact ⟨entry, by
        simpa [Storage.saveEntry, Storage.loadEntry] using fs_load_save files entry, rfl⟩
  | pg table =>
    have hold : ∀ old, (Storage.pg table).loadEntry true entry.id = some old →
        old.createdAt = entry.createdAt := by
      rcases hkind with ⟨files, hfiles⟩ | hkind
      · exact Storage.noConfusion hfiles
      · exact hkind
    obtain ⟨-, key, content, edit_code, h1, -, -, hst⟩ :=
      pg_saveEntry_ok table ok entry (by simpa [Storage.saveEntry] using hs)
    have hnul := toVarchar255_hasNul h1
    simp only [Storage.saveEntry, Storage.loadEntry]
    rw [hst]
    by_cases hk : key = entry.id
    · subst hk
      refine ⟨{ id := entry.id
                content := content
                editCode := edit_code
                createdAt :=
                  (match table entry.id with
                    | none => newDate entry.createdAt
                    | some row => row.created_at).toISOString
                updatedAt := (newDate entry.updatedAt).toISOString }, ?_, ?_⟩
      · simp [PostgreSQLBackend.loadEntry, hnul]
      · cases hrow : table entry.id with
        | none => simp [newDate, Date.toISOString]
        | some row =>
          have hload : (Storage.pg table).loadEntry true entry.id = some
              { id := entry.id
                content := row.content
                editCode := row.edit_code
                createdAt := row.created_at.toISOString
                updatedAt := row.updated_at.toISOString } := by
            simp [Storage.loadEntry, PostgreSQLBackend.loadEntry, hnul, hrow]
          exact hold
            { id := entry.id
              content := row.content
              editCode := row.edit_code
              createdAt := row.created_at.toISOString
              updatedAt := row.updated_at.toISOString } hload
    · have hlong : ¬ entry.id.length ≤ 255 := by
        intro hle
        rw [toVarchar255_of_length_le hnul hle] at h1
        exact hk (Option.some.inj h1).symm
      rcases hkey with hle | ⟨old, hfound⟩
      · exact absurd hle hlong
      · refine ⟨old, ?_, hold old hfound⟩
        simp only [Storage.loadEntry, PostgreSQLBackend.loadEntry] at hfound ⊢
        rw [Function.update_noteq (Ne.symm hk)]
        exact hfound

/-- C11 (as amended). For every entry that `loadEntry` finds and every successful
update, the entry persisted under the final id has the `createdAt` of the entry
before the update, on the filesystem backend always, and on the relational backend
when the id does not change or the load that looks for an entry under the new id
completes; `createdAt` being the one field besides content, edit code, id and
`updatedAt`, these are the only fields that may change. -/
theorem update_keeps_createdAt (storage : Storage) (env : Env) (id : String)
    (body : UpdateBody) (entry : Entry) (finalId : String) (cookie : Option String)
    (hfound : storage.loadEntry env.loadOk id = some entry)
    (hsucc : (update storage env id body).2 = .edit finalId cookie)
    (hcheck : (∃ files, storage = .fs files) ∨ finalId = id ∨ env.load2Ok = true) :
    ∃ e, (update storage env id body).1.loadEntry true finalId = some e ∧
      e.createdAt = entry.createdAt := by
  obtain ⟨moved, before, hid, hcreated, -, hbefore, hs, hst⟩ :=
    update_success storage env id body entry finalId cookie hfound hsucc
  have hok := storage_load_ok hfound
  rw [hok] at hfound
  rw [hst, ← hid, ← hcreated]
  apply save_keeps_createdAt before env.saveOk moved hs
  · rcases hbefore with ⟨hb, hsame⟩ | ⟨hb, -, hnone⟩
    · right
      intro old hold
      rw [hb, hid, hsame, hfound] at hold
      rw [← Option.some.inj hold, hcreated]
    · rcases hcheck with ⟨files, hfiles⟩ | hsame | hload2
      · left
        subst hfiles
        exact ⟨_, hb⟩
      · right
        intro old hold
        rw [hb, hid, hsame] at hold
        have := storage_load_delete_some storage env.deleteOk id id old hold
        rw [hfound] at this
        rw [← Option.some.inj this, hcreated]
      · right
        intro old hold
        rw [hload2] at hnone
        rw [hb, hid, storage_load_delete_none storage env.deleteOk id finalId hnone] at hold
        exact Option.noConfusion hold
  · rcases hbefore with ⟨hb, hsame⟩ | ⟨-, hlen, -⟩
    · right
      exact ⟨entry, by rw [hb, hid, hsame]; exact hfound⟩
    · left
      rw [hid]
      exact hlen

/-- An instance on each backend: the rename of the sample entry, after which the
entry under `greet` has the `createdAt` of the create. -/
theorem update_keeps_createdAt_witness :
    (∃ e, (update sampleFs sampleEnv "abcde"
        ⟨some "world", some "k", none, some "greet"⟩).1.loadEntry true "greet" = some e ∧
      e.createdAt = ⟨1704067200000⟩) ∧
    (∃ e, (update samplePg sampleEnv "abcde"
        ⟨some "world", some "k", none, some "greet"⟩).1.loadEntry true "greet" = some e ∧
      e.createdAt = ⟨1704067200000⟩) :=
  ⟨update_keeps_createdAt sampleFs sampleEnv "abcde"
      ⟨some "world", some "k", none, some "greet"⟩
      ⟨"abcde", "hello", "k", ⟨1704067200000⟩, ⟨1704067200001⟩⟩ "greet" none
      (by decide) (by decide) (Or.inr (Or.inr rfl)),
    update_keeps_createdAt samplePg sampleEnv "abcde"
      ⟨some "world", some "k", none, some "greet"⟩
      ⟨"abcde", "hello", "k", ⟨1704067200000⟩, ⟨1704067200001⟩⟩ "greet" none
      (by decide) (by decide) (Or.inr (Or.inr rfl))⟩

/-- C11 fails as stated on the relational backend. The table holds `abcde`, created
on 2024-01-01, and `greet`, created on 2024-01-02. An update renames `abcde` to
`greet` while the load that looks for `greet` does not complete: the update succeeds,
and the entry persisted under `greet` has the new content and the `createdAt` of
2024-01-02. -/
theorem update_keeps_createdAt_counterexample :
    (stateAfter (.pg Table.empty)
        [(sampleEnv, .create ⟨some "hello", none, some "k"⟩),
         ({ sampleEnv with now := ⟨1704153600000⟩, now2 := ⟨1704153600000⟩ },
            .create ⟨some "other", some "greet", some "g"⟩)]).loadEntry true "abcde"
      = some ⟨"abcde", "hello", "k", ⟨1704067200000⟩, ⟨1704067200001⟩⟩ ∧
    (update
        (stateAfter (.pg Table.empty)
          [(sampleEnv, .create ⟨some "hello", none, some "k"⟩),
           ({ sampleEnv with now := ⟨1704153600000⟩, now2 := ⟨1704153600000⟩ },
              .create ⟨some "other", some "greet", some "g"⟩)])
        { sampleEnv with load2Ok := false, now := ⟨1704240000000⟩ } "abcde"
        ⟨some "world", some "k", none, some "greet"⟩).2 = .edit "greet" none ∧
    (update
        (stateAfter (.pg Table.empty)
          [(sampleEnv, .create ⟨some "hello", none, some "k"⟩),
           ({ sampleEnv with now := ⟨1704153600000⟩, now2 := ⟨1704153600000⟩ },
              .create ⟨some "other", some "greet", some "g"⟩)])
        { sampleEnv with load2Ok := false, now := ⟨1704240000000⟩ } "abcde"
        ⟨some "world", some "k", none, some "greet"⟩).1.loadEntry true "greet"
      = some ⟨"greet", "world", "k", ⟨1704153600000⟩, ⟨1704240000000⟩⟩ := by
  decide

/-! ## Stored edit codes and stored ids -/

/-- C12 fails on the code. One create without an edit code, with `Math.random()`
returning 0 inside `generateEditCode`, takes the empty store to a store whose entry
has the empty edit code, on either backend; the response shows the empty code too. -/
theorem empty_edit_code_reachable :
    generateEditCode ⟨[]⟩ = "" ∧
    (handle (.fs Files.empty) { sampleEnv with codeDraw := ⟨[]⟩ }
      (.create ⟨some "hello", none, none⟩)).2 = .edit "abcde" (some "") ∧
    (stateAfter (.fs Files.empty)
        [({ sampleEnv with codeDraw := ⟨[]⟩ }, .create ⟨some "hello", none, none⟩)]).stored
        "abcde.json"
      = some ⟨"abcde", "hello", "", ⟨1704067200000⟩, ⟨1704067200001⟩⟩ ∧
    (stateAfter (.pg Table.empty)
        [({ sampleEnv with codeDraw := ⟨[]⟩ }, .create ⟨some "hello", none, none⟩)]).stored
        "abcde"
      = some ⟨"abcde", "hello", "", ⟨1704067200000⟩, ⟨1704067200001⟩⟩ := by
  decide

/-- C13 fails on the code. After a create of `abcde`, an update sent to the URL id
`a/bcde` with the right edit code finds the file `abcde.json` and writes the entry
back with the id `a/bcde`, which `sanitize` changes and which is not the file name
stem. And a create with `customUrl` `con .` stores an entry with the id `con` in
the file `.json`, `sanitize("con")` being empty. -/
theorem raw_id_reachable :
    sanitize "a/bcde" = "abcde" ∧
    (stateAfter (.fs Files.empty)
        [(sampleEnv, .create ⟨some "hello", none, some "k"⟩),
         (sampleEnv, .update "a/bcde" ⟨some "world", some "k", none, none⟩)]).stored
        "abcde.json"
      = some ⟨"a/bcde", "world", "k", ⟨1704067200000⟩, ⟨1704067200000⟩⟩ ∧
    sanitize "con" = "" ∧
    (handle (.fs Files.empty) sampleEnv (.create ⟨some "hello", some "con .", some "k"⟩)).2
      = .edit "con" none ∧
    (stateAfter (.fs Files.empty)
        [(sampleEnv, .create ⟨some "hello", some "con .", some "k"⟩)]).stored ".json"
      = some ⟨"con", "hello", "k", ⟨1704067200000⟩, ⟨1704067200001⟩⟩ := by
  decide

/-! ## What the handlers do to the store -/

theorem fst_ite_same {α β : Type} (c : Prop) [Decidable c] (x : α) (a b : β) :
    (if c then (x, a) else (x, b)).1 = x := by
  split <;> rfl

/-- A property of the store is kept by every handler when it is kept by a delete and
by a save of an entry whose edit code is fit, the fit edit codes including the one
generated, the trimmed request fields and the edit codes of loaded entries. -/
theorem handle_preserves (P : Storage → Prop) (fit : String → Prop) (env : Env)
    (hgen : fit (generateEditCode env.codeDraw))
    (htrim : ∀ x code, trimmedIfGiven x = some code → fit code)
    (hload : ∀ st, P st → ∀ ok id old, st.loadEntry ok id = some old → fit old.editCode)
    (hsave : ∀ st ok e, P st → fit e.editCode → P (st.saveEntry ok e).1)
    (hdelete : ∀ st ok id, P st → P (st.deleteEntry ok id).1)
    (storage : Storage) (request : Request) (h : P storage) :
    P (handle storage env request).1 := by
  cases request with
  | view id => exact h
  | editForm id => exact h
  | apiEntry id => exact h
  | create body =>
    have hcode : fit (match trimmedIfGiven body.editCode with
        | some editCode => editCode
        | none => generateEditCode env.codeDraw) := by
      cases he : trimmedIfGiven body.editCode with
      | none => exact hgen
      | some code => exact htrim _ _ he
    simp only [handle, create]
    split
    · exact h
    · split
      · exact h
      · rw [fst_ite_same]
        exact hsave _ _ _ h hcode
  | update id body =>
    simp only [handle, update]
    cases hfound : storage.loadEntry env.loadOk id with
    | none => exact h
    | some entry =>
      have hcode : fit (match trimmedIfGiven body.newEditCode with
          | some code => code
          | none => entry.editCode) := by
        cases he : trimmedIfGiven body.newEditCode with
        | none => exact hload storage h _ _ _ hfound
        | some code => exact htrim _ _ he
      simp only []
      split
      · exact h
      · split
        · exact h
        · split
          · rw [fst_ite_same]
            exact hsave _ _ _ h hcode
          · split
            · split
              · exact h
              · rw [fst_ite_same]
                exact hsave _ _ _ (hdelete _ _ _ h) hcode
            · rw [fst_ite_same]
              exact hsave _ _ _ h hcode

theorem stateAfter_preserves (P : Storage → Prop) (fit : Env → String → Prop)
    (hstep : ∀ env, fit env (generateEditCode env.codeDraw) →
      ∀ storage request, P storage → P (handle storage env request).1)
    (requests : List (Env × Request)) :
    ∀ storage, P storage → (∀ p ∈ requests, fit p.1 (generateEditCode p.1.codeDraw)) →
      P (stateAfter storage requests) := by
  induction requests with
  | nil =>
    intro storage h _
    exact h
  | cons head rest ih =>
    intro storage h hfit
    obtain ⟨env, request⟩ := head
    exact ih _ (hstep env (hfit (env, request) (List.mem_cons_self _ _)) storage request h)
      (fun p hp => hfit p (List.mem_cons_of_mem _ hp))

/-! ## Stored ids: the file name is the sanitized id -/

theorem fs_files_preserved (env : Env) (storage : Storage) (request : Request)
    (h : ∃ files, storage = .fs files ∧ ∀ name e, files name = some e → name = getEntryPath e.id) :
    ∃ files, (handle storage env request).1 = .fs files ∧
      ∀ name e, files name = some e → name = getEntryPath e.id := by
  refine handle_preserves
    (fun st => ∃ files, st = .fs files ∧ ∀ name e, files name = some e → name = getEntryPath e.id)
    (fun _ => True) env trivial (fun _ _ _ => trivial) (fun _ _ _ _ _ _ => trivial)
    ?_ ?_ storage request h
  · rintro st ok entry ⟨files, rfl, hfiles⟩ -
    refine ⟨(FileSystemBackend.saveEntry files ok entry).1, rfl, ?_⟩
    intro name e hname
    cases ok with
    | false => exact hfiles name e hname
    | true =>
      simp only [FileSystemBackend.saveEntry, if_true] at hname
      by_cases hk : name = getEntryPath entry.id
      · subst hk
        rw [Function.update_same] at hname
        rw [← Option.some.inj hname]
      · rw [Function.update_noteq hk] at hname
        exact hfiles name e hname
  · rintro st ok id ⟨files, rfl, hfiles⟩
    refine ⟨(FileSystemBackend.deleteEntry files ok id).1, rfl, ?_⟩
    intro name e hname
    cases ok with
    | false => exact hfiles name e hname
    | true =>
      simp only [FileSystemBackend.deleteEntry, if_true] at hname
      by_cases hk : name = getEntryPath id
      · subst hk
        rw [Function.update_same] at hname
        exact Option.noConfusion hname
      · rw [Function.update_noteq hk] at hname
        exact hfiles name e hname

/-- What does hold of the stored ids: in every state of the filesystem backend
reached from the empty data directory, the file that holds an entry is named by the
sanitized id of that entry, `sanitize(entry.id)` followed by `.json`. -/
theorem stored_under_sanitized_id (requests : List (Env × Request)) (name : String)
    (e : Entry)
    (h : (stateAfter (.fs Files.empty) requests).stored name = some e) :
    name = getEntryPath e.id := by
  have hinv := stateAfter_preserves
    (fun st => ∃ files, st = .fs files ∧ ∀ name e, files name = some e → name = getEntryPath e.id)
    (fun _ _ => True)
    (fun env _ storage request hst => fs_files_preserved env storage request hst)
    requests (.fs Files.empty)
    ⟨Files.empty, rfl, fun name e hname => by simp [Files.empty] at hname⟩
    (fun _ _ => trivial)
  obtain ⟨files, hfiles, hnames⟩ := hinv
  rw [hfiles] at h
  exact hnames name e h

/-! ## Stored edit codes: empty only when generated empty -/

theorem string_ne_empty_iff (s : String) : s ≠ "" ↔ s.data ≠ [] := by
  rw [Ne, String.ext_iff]

theorem trimmedIfGiven_ne_empty {x : Option String} {code : String}
    (h : trimmedIfGiven x = some code) : code ≠ "" := by
  cases x with
  | none => simp [trimmedIfGiven_none] at h
  | some s =>
    rw [trimmedIfGiven_some] at h
    by_cases hb : isBlank s = true
    · simp [hb] at h
    · simp only [hb, Bool.false_eq_true, if_false, Option.some.injEq] at h
      subst h
      rw [string_ne_empty_iff]
      intro hdata
      exact hb (by simp [isBlank, hdata])

theorem generateEditCode_ne_empty {r : Draw} (h : r.digits ≠ []) : generateEditCode r ≠ "" := by
  rw [string_ne_empty_iff, generateEditCode_data]
  cases hd : r.digits with
  | nil => exact absurd hd h
  | cons d ds => simp

theorem toVarchar255_ne_empty {s t : String} (hs : s ≠ "") (h : toVarchar255 s = some t) :
    t ≠ "" := by
  unfold toVarchar255 at h
  split at h
  · exact Option.noConfusion h
  · split at h
    · rw [← Option.some.inj h]
      exact hs
    · next hlong =>
      split at h
      · rw [← Option.some.inj h, string_ne_empty_iff]
        intro hnil
        have hlen : s.data.length = s.length := rfl
        have hnil2 : s.data.take 255 = [] := hnil
        have h0 : (s.data.take 255).length = 0 := by rw [hnil2]; rfl
        rw [List.length_take] at h0
        omega
      · exact Option.noConfusion h

theorem load_is_stored {storage : Storage} {ok : Bool} {id : String} {old : Entry}
    (h : storage.loadEntry ok id = some old) :
    ∃ key, storage.stored key = some old := by
  cases storage with
  | fs files =>
    cases ok with
    | false => simp [Storage.loadEntry, FileSystemBackend.loadEntry] at h
    | true => exact ⟨getEntryPath id, by simpa [Storage.loadEntry, FileSystemBackend.loadEntry] using h⟩
  | pg table =>
    refine ⟨id, ?_⟩
    simp only [Storage.loadEntry, PostgreSQLBackend.loadEntry] at h
    split at h
    · exact h
    · exact Option.noConfusion h

theorem edit_codes_preserved (env : Env) (hdraw : env.codeDraw.digits ≠ [])
    (storage : Storage) (request : Request)
    (h : ∀ key e, storage.stored key = some e → e.editCode ≠ "") :
    ∀ key e, (handle storage env request).1.stored key = some e → e.editCode ≠ "" := by
  refine handle_preserves
    (fun st => ∀ key e, st.stored key = some e → e.editCode ≠ "")
    (fun code => code ≠ "") env (generateEditCode_ne_empty hdraw)
    (fun _ _ hx => trimmedIfGiven_ne_empty hx) ?_ ?_ ?_ storage request h
  · intro st hst ok id old hold
    obtain ⟨key, hkey⟩ := load_is_stored hold
    exact hst key old hkey
  · intro st ok entry hst hfit key e hstored
    cases st with
    | fs files =>
      cases ok with
      | false => exact hst key e hstored
      | true =>
        simp only [Storage.saveEntry, FileSystemBackend.saveEntry, if_true,
          Storage.stored] at hstored
        by_cases hk : key = getEntryPath entry.id
        · subst hk
          rw [Function.update_same] at hstored
          rw [← Option.some.inj hstored]
          exact hfit
        · rw [Function.update_noteq hk] at hstored
          exact hst key e hstored
    | pg table =>
      cases hs : (PostgreSQLBackend.saveEntry table ok entry).2 with
      | false =>
        have := storage_saveEntry_failed (.pg table) ok entry
          (by simpa [Storage.saveEntry] using hs)
        rw [this] at hstored
        exact hst key e hstored
      | true =>
        obtain ⟨-, k, content, edit_code, -, -, h3, hstate⟩ := pg_saveEntry_ok table ok entry hs
        simp only [Storage.saveEntry, Storage.stored] at hstored
        rw [hstate] at hstored
        by_cases hk : key = k
        · subst hk
          rw [Function.update_same] at hstored
          rw [← Option.some.inj hstored]
          exact toVarchar255_ne_empty hfit h3
        · rw [Function.update_noteq hk] at hstored
          exact hst key e hstored
  · intro st ok id hst key e hstored
    cases st with
    | fs files =>
      cases ok with
      | false => exact hst key e hstored
      | true =>
        simp only [Storage.deleteEntry, FileSystemBackend.deleteEntry, if_true,
          Storage.stored] at hstored
        by_cases hk : key = getEntryPath id
        · subst hk
          rw [Function.update_same] at hstored
          exact Option.noConfusion hstored
        · rw [Function.update_noteq hk] at hstored
          exact hst key e hstored
    | pg table =>
      simp only [Storage.deleteEntry, PostgreSQLBackend.deleteEntry] at hstored
      by_cases hd : (ok && !hasNul id) = true
      · rw [if_pos hd] at hstored
        simp only [Storage.stored] at hstored
        by_cases hk : key = id
        · subst hk
          rw [Function.update_same] at hstored
          exact Option.noConfusion hstored
        · rw [Function.update_noteq hk] at hstored
          exact hst key e hstored
      · rw [if_neg hd] at hstored
        exact hst key e hstored

/-- What does hold of the stored edit codes: in every state reached from an empty
store by requests in which `Math.random()` inside `generateEditCode` never prints as
`0`, every stored entry has an edit code that is not empty, on either backend. -/
theorem stored_edit_codes_not_empty (requests : List (Env × Request))
    (hdraws : ∀ p ∈ requests, p.1.codeDraw.digits ≠ []) (key : String) (e : Entry) :
    ((stateAfter (.fs Files.empty) requests).stored key = some e → e.editCode ≠ "") ∧
    ((stateAfter (.pg Table.empty) requests).stored key = some e → e.editCode ≠ "") := by
  have hstep : ∀ start : Storage, (∀ key e, start.stored key = some e → e.editCode ≠ "") →
      ∀ key e, (stateAfter start requests).stored key = some e → e.editCode ≠ "" := by
    intro start hstart
    exact stateAfter_preserves
      (fun st => ∀ key e, st.stored key = some e → e.editCode ≠ "")
      (fun env _ => env.codeDraw.digits ≠ [])
      (fun env henv storage request hst => edit_codes_preserved env henv storage request hst)
      requests start hstart hdraws
  constructor
  · exact hstep _ (fun key e h => by simp [Storage.stored, Files.empty] at h) key e
  · exact hstep _ (fun key e h => by simp [Storage.stored, Table.empty] at h) key e

end PageBin
